import Mathlib

/-!
Verification development for the Gaea2 Tile Helper add-on
(src/gaea2_tile_helper.py).

The Python source is shallowly embedded below.  Strings are `List Char`,
Python floats are modelled as rationals, the host (Blender) is modelled
through an explicit image-loading oracle `LoadImage` and a small geometric
model of plane meshes; `context.report`/`self.report` calls are modelled by
accumulating `Report` values in the order the source emits them.
-/

namespace Gaea2

/-! ## String and path utilities (model of the os.path calls used by the source) -/

/-- Index of the last occurrence of a character in a list, if any
(model of Python str.rfind restricted to single characters). -/
def rfindIdx (c : Char) : List Char → Option Nat
  | [] => none
  | a :: as =>
    match rfindIdx c as with
    | some i => some (i + 1)
    | none => if a = c then some 0 else none

/-- Remove trailing slash characters (model of str.rstrip applied with the
path separator, as posixpath.split does). -/
def rstripSlash (l : List Char) : List Char :=
  (l.reverse.dropWhile (fun c => c = '/')).reverse

/-- Model of os.path.split (posixpath): split at the final slash; the head
keeps a run of leading slashes but otherwise loses trailing slashes. -/
def os_path_split (p : List Char) : List Char × List Char :=
  match rfindIdx '/' p with
  | none => ([], p)
  | some i =>
    let head := p.take (i + 1)
    (if head.all (fun c => c = '/') then head else rstripSlash head, p.drop (i + 1))

/-- Model of os.path.splitext for the slash-free basenames produced by
`os_path_split` (the only way the source calls it): the extension starts at
the final dot, unless every character before that dot is itself a dot. -/
def os_path_splitext (p : List Char) : List Char × List Char :=
  match rfindIdx '.' p with
  | none => (p, [])
  | some i =>
    if (p.take i).all (fun c => c = '.') then (p, []) else (p.take i, p.drop i)

/-- Model of os.path.join for two components (posixpath). -/
def os_path_join (a b : List Char) : List Char :=
  if b.head? = some '/' then b
  else if a = [] ∨ a.getLast? = some '/' then a ++ b
  else a ++ '/' :: b

/-- Numeric value of a decimal digit string (model of Python int() on the
digit-only strings captured by the regex groups). -/
def parseDigits (l : List Char) : Nat :=
  l.foldl (fun n c => n * 10 + (c.toNat - 48)) 0

/-- Decimal rendering of a natural number (model of the Python f-string
interpolation of a non-negative int). -/
def natRepr (n : Nat) : List Char :=
  Nat.toDigits 10 n

/-! ## The regex search

The source uses re.search with the pattern underscore-y-digits-underscore-x-digits
and two capture groups for the digit runs.  Because a digit run followed by a
literal underscore never backtracks, the regex is equivalent to the
deterministic scanner below: `matchAt` tries the pattern at the head of the
list, `searchYX` scans for the leftmost position where it matches. -/

/-- Try to match the coordinate pattern at the head of the list.  On success
returns the two digit groups and the remainder after the match. -/
def matchAt (s : List Char) : Option (List Char × List Char × List Char) :=
  match s with
  | c1 :: c2 :: t =>
    if c1 = '_' ∧ c2 = 'y' then
      match t.dropWhile Char.isDigit with
      | d1 :: d2 :: t2 =>
        if t.takeWhile Char.isDigit ≠ [] ∧ d1 = '_' ∧ d2 = 'x' then
          if t2.takeWhile Char.isDigit ≠ [] then
            some (t.takeWhile Char.isDigit, t2.takeWhile Char.isDigit,
              t2.dropWhile Char.isDigit)
          else none
        else none
      | _ => none
    else none
  | _ => none

/-- Result of a successful regex search: the text before the match, the two
digit groups and the text after the match. -/
structure YXMatch where
  pre : List Char
  yds : List Char
  xds : List Char
  rest : List Char
deriving DecidableEq, Repr

/-- Leftmost match of the coordinate pattern (model of re.search). -/
def searchYX : List Char → Option YXMatch
  | [] => none
  | c :: cs =>
    match matchAt (c :: cs) with
    | some (yds, xds, r) => some ⟨[], yds, xds, r⟩
    | none => (searchYX cs).map (fun m => ⟨c :: m.pre, m.yds, m.xds, m.rest⟩)

/-- Containment of a coordinate substring: some decomposition of the string
exhibits the pattern with nonempty digit runs. -/
def containsYXPattern (s : List Char) : Prop :=
  ∃ a yds xds b, yds ≠ [] ∧ xds ≠ [] ∧
    (∀ c ∈ yds, Char.isDigit c = true) ∧ (∀ c ∈ xds, Char.isDigit c = true) ∧
    s = a ++ '_' :: 'y' :: (yds ++ '_' :: 'x' :: (xds ++ b))

/-! ## Exceptions, reports and operator results -/

/-- The one Python exception kind this embedding needs.  The two resolvers
call report on the bpy context object, which has no report method (operator
reporting is a method of the Operator, passed around as report_func
elsewhere in the source), so those calls raise AttributeError. -/
inductive PyExn
  | attributeError
deriving DecidableEq, Repr

/-- Severity levels used by the operator report calls. -/
inductive Severity
  | INFO
  | WARNING
  | ERROR
deriving DecidableEq, Repr

/-- One report call the source can actually perform (via self.report or the
report_func parameter), identified by its call site; path-carrying reports
record the interpolated path.  The two pattern-mismatch report calls of the
resolvers are absent: they are made on the bpy context, which has no report
method, so they raise instead of reporting. -/
inductive Report
  | failedLoadImage (path : List Char)
  | loadedTexture (path : List Char)
  | failedLoadTexture (path : List Char)
  | loadedRoughness (path : List Char)
  | failedLoadRoughness (path : List Char)
  | stlGenerated (path : List Char)
deriving DecidableEq, Repr

/-- Severity each reachable report site passes to report(). -/
def Report.severity : Report → Severity
  | .failedLoadImage _ => .WARNING
  | .loadedTexture _ => .INFO
  | .failedLoadTexture _ => .ERROR
  | .loadedRoughness _ => .INFO
  | .failedLoadRoughness _ => .ERROR
  | .stlGenerated _ => .INFO

/-- Return value of an operator execute method. -/
inductive OpResult
  | FINISHED
  | CANCELLED
deriving DecidableEq, Repr

/-! ## Property group -/

/-- Model of TileGeneratorProperties (floats as rationals, paths as char
lists).  The Blender property defaults/minimums are not part of the model;
theorems quantify over all values. -/
structure Props where
  num_rows : Nat
  num_cols : Nat
  displacement_strength : ℚ
  subdivision_levels : Nat
  start_tile_file : List Char
  tile_thickness : ℚ
  output_dir : List Char
  texture_file : List Char
  roughness_file : List Char
  invert_roughness_map : Bool

/-! ## Path generation (generate_heightmap_path / generate_texture_or_roughness_path) -/

/-- The stem of a path, as the source computes it: basename without its
extension. -/
def pathStem (p : List Char) : List Char :=
  (os_path_splitext (os_path_split p).2).1

/-- Model of generate_heightmap_path: split the configured start path and
search the stem for the coordinate pattern.  When it is absent the function
calls report on the bpy context, which has no report method, so an
AttributeError is raised out of the function and the subsequent return of
None is unreachable (the ok-none value of this type is therefore never
produced; it is kept because the callers test for it).  On a match it
rebuilds the filename from the prefix before the match, the shifted
coordinates, and the extension. -/
def generate_heightmap_path (start_tile_file : List Char) (row col : Nat) :
    Except PyExn (Option (List Char)) :=
  match searchYX (pathStem start_tile_file) with
  | none => Except.error PyExn.attributeError
  | some m =>
    Except.ok (some (os_path_join (os_path_split start_tile_file).1
      (m.pre ++ ('_' :: 'y' :: natRepr (parseDigits m.yds + row))
             ++ ('_' :: 'x' :: natRepr (parseDigits m.xds + col))
             ++ (os_path_splitext (os_path_split start_tile_file).2).2)))

/-- Model of generate_texture_or_roughness_path: identical to the heightmap
resolver except that an empty input path short-circuits to None before any
report call; a nonempty non-matching path raises the same AttributeError
from the context report call. -/
def generate_texture_or_roughness_path (file_path : List Char) (row col : Nat) :
    Except PyExn (Option (List Char)) :=
  if file_path = [] then Except.ok none
  else
    match searchYX (pathStem file_path) with
    | none => Except.error PyExn.attributeError
    | some m =>
      Except.ok (some (os_path_join (os_path_split file_path).1
        (m.pre ++ ('_' :: 'y' :: natRepr (parseDigits m.yds + row))
               ++ ('_' :: 'x' :: natRepr (parseDigits m.xds + col))
               ++ (os_path_splitext (os_path_split file_path).2).2)))

/-- Model of generate_texture_paths: resolve the three per-tile paths in
source order; an exception in any of the three calls propagates. -/
def generate_texture_paths (props : Props) (row col : Nat) :
    Except PyExn (Option (List Char) × Option (List Char) × Option (List Char)) :=
  match generate_heightmap_path props.start_tile_file row col with
  | Except.error e => Except.error e
  | Except.ok h =>
    match generate_texture_or_roughness_path props.texture_file row col with
    | Except.error e => Except.error e
    | Except.ok t =>
      match generate_texture_or_roughness_path props.roughness_file row col with
      | Except.error e => Except.error e
      | Except.ok r => Except.ok (h, t, r)

/-! ## Geometry model -/

/-- A point or vector with rational coordinates. -/
structure V3 where
  x : ℚ
  y : ℚ
  z : ℚ
deriving DecidableEq, Repr

def V3.add (a b : V3) : V3 := ⟨a.x + b.x, a.y + b.y, a.z + b.z⟩

/-- A loaded raster, as the intensity the displacement modifier samples at a
UV coordinate. -/
abbrev Img : Type := ℚ → ℚ → ℚ

/-- Host image loading oracle: some image on success, none when
bpy.data.images.load raises. -/
abbrev LoadImage : Type := List Char → Option Img

/-- The quad-grid state of the plane mesh: m edge segments per side, vertex
positions indexed by grid coordinates in [0, m]. -/
structure PlaneGrid where
  m : Nat
  pos : Nat → Nat → V3

/-- Vertex list of a grid, rows in order. -/
def PlaneGrid.verts (g : PlaneGrid) : List V3 :=
  (List.range (g.m + 1)).flatMap (fun i => (List.range (g.m + 1)).map (fun j => g.pos i j))

/-- Vertex positions of the freshly subdivided 10 by 10 plane: corners at
-5 and 5, uniformly spaced, local z zero. -/
def planePos (m : Nat) (i j : Nat) : V3 :=
  ⟨-5 + 10 * (i : ℚ) / (m : ℚ), -5 + 10 * (j : ℚ) / (m : ℚ), 0⟩

/-- The two modifier kinds the source creates. -/
inductive Modifier
  | subsurf (levels : Nat)
  | displace (strength : ℚ) (img : Img)

/-- Linear interpolation. -/
def lerpQ (a b t : ℚ) : ℚ := (1 - t) * a + t * b

def V3.lerp (a b : V3) (t : ℚ) : V3 := ⟨lerpQ a.x b.x t, lerpQ a.y b.y t, lerpQ a.z b.z t⟩

/-- Geometric action of a SIMPLE subdivision-surface modifier at the given
level: each quad is split 2^levels times per side, new vertices placed by
bilinear interpolation (SIMPLE subdivision does not smooth). -/
def subsurfSimple (levels : Nat) (g : PlaneGrid) : PlaneGrid :=
  let k := 2 ^ levels
  { m := g.m * k,
    pos := fun i j =>
      let qi := i / k
      let qj := j / k
      let ri : ℚ := ((i % k : Nat) : ℚ) / (k : ℚ)
      let rj : ℚ := ((j % k : Nat) : ℚ) / (k : ℚ)
      V3.lerp (V3.lerp (g.pos qi qj) (g.pos (qi + 1) qj) ri)
              (V3.lerp (g.pos qi (qj + 1)) (g.pos (qi + 1) (qj + 1)) ri) rj }

/-- Geometric action of the displacement modifier: mid_level 0, UV-mapped
sampling of the heightmap over the plane footprint, offset along the plane
normal (+z) scaled by the strength. -/
def displaceGrid (strength : ℚ) (img : Img) (g : PlaneGrid) : PlaneGrid :=
  { m := g.m,
    pos := fun i j =>
      let v := g.pos i j
      ⟨v.x, v.y, v.z + strength * img ((v.x + 5) / 10) ((v.y + 5) / 10)⟩ }

/-- Geometric action used when a modifier is applied (baked). -/
def Modifier.applyTo : Modifier → PlaneGrid → PlaneGrid
  | .subsurf levels, g => subsurfSimple levels g
  | .displace strength img, g => displaceGrid strength img g

/-- A mesh object: its grid geometry, object-level translation and stack of
live (not yet applied) modifiers. -/
structure BObject where
  grid : PlaneGrid
  location : V3
  modifiers : List Modifier

/-- Model of prepare_plane: add a unit plane at (0, 0, tile_thickness),
scale by 10, subdivide with the given number of cuts, apply the scale.
The resulting object has subdivisions + 1 segments per side, no modifiers. -/
def prepare_plane (subdivisions : Nat) (tile_thickness : ℚ) : BObject :=
  { grid := { m := subdivisions + 1, pos := planePos (subdivisions + 1) },
    location := ⟨0, 0, tile_thickness⟩,
    modifiers := [] }

/-- Model of apply_displacement: create a SIMPLE subsurf modifier at the
configured level and a displacement modifier (mid_level 0, UV coordinates,
EXTEND) driven by the heightmap, then immediately apply both by name via
bpy.ops.object.modifier_apply, in that order.  The two freshly added
modifiers are therefore baked into the geometry and removed again; any
previously present modifiers are untouched. -/
def apply_displacement (img : Img) (strength : ℚ) (levels : Nat) (o : BObject) : BObject :=
  { grid := Modifier.applyTo (Modifier.displace strength img)
      (Modifier.applyTo (Modifier.subsurf levels) o.grid),
    location := o.location,
    modifiers := o.modifiers }

/-- Model of bpy.ops.object.transform_apply with location (rotation and
scale are identity at every call site): freeze the object translation into
the vertex coordinates. -/
def transform_apply_loc (o : BObject) : BObject :=
  { grid := { m := o.grid.m, pos := fun i j => (o.grid.pos i j).add o.location },
    location := ⟨0, 0, 0⟩,
    modifiers := o.modifiers }

/-- Model of the downward extrusion for STL: keep the displaced top surface
and add a copy translated down by the extrusion depth. -/
def extrudeDown (depth : ℚ) (verts : List V3) : List V3 :=
  verts ++ verts.map (fun v => ⟨v.x, v.y, v.z - depth⟩)

/-- Model of the flatten loop: every vertex with z below zero is clamped to
zero. -/
def flattenBase (verts : List V3) : List V3 :=
  verts.map (fun v => if v.z < 0 then ⟨v.x, v.y, 0⟩ else v)

/-! ## Materials -/

/-- Shader graph state produced by assign_material: which image path feeds
the Base Color input, which feeds the Roughness input, and whether an invert
node sits between the roughness texture and the shader. -/
structure Material where
  baseColorTex : Option (List Char)
  roughnessTex : Option (List Char)
  roughnessInverted : Bool
deriving DecidableEq, Repr

/-- Model of assign_material: try to load each optional raster; a load
failure is caught, reported as an ERROR, and leaves that shader input
unconnected; a success connects it (through an invert node for the
roughness map when requested) and reports INFO. -/
def assign_material (loadImage : LoadImage) (texture_path roughness_path : Option (List Char))
    (invert_roughness_map : Bool) : Material × List Report :=
  let tex : Option (List Char) × List Report :=
    match texture_path with
    | none => (none, [])
    | some tp =>
      match loadImage tp with
      | some _ => (some tp, [Report.loadedTexture tp])
      | none => (none, [Report.failedLoadTexture tp])
  let rough : Option (List Char) × Bool × List Report :=
    match roughness_path with
    | none => (none, false, [])
    | some rp =>
      match loadImage rp with
      | some _ => (some rp, invert_roughness_map, [Report.loadedRoughness rp])
      | none => (none, false, [Report.failedLoadRoughness rp])
  ({ baseColorTex := tex.1, roughnessTex := rough.1, roughnessInverted := rough.2.1 },
   tex.2 ++ rough.2.2)

/-! ## The two operators -/

/-- A tile left in the scene by the render operator. -/
structure RenderTile where
  row : Nat
  col : Nat
  obj : BObject
  material : Material

/-- An STL file written by the STL operator; row/col record which grid cell
produced it. -/
structure ExportedFile where
  row : Nat
  col : Nat
  path : List Char
  verts : List V3

/-- Model of OBJECT_OT_generate_render_tiles.generate_tile_for_render.  The
single_heightmap flag is accepted but, exactly as in the source, never
read.  The triple separates the control-flow outcome (a returned OpResult,
or a propagating exception) from the side effects that persist either way:
the scene tiles created and the reports emitted. -/
def generate_tile_for_render (loadImage : LoadImage) (props : Props) (row col : Nat)
    (single_heightmap : Bool) : Except PyExn OpResult × List RenderTile × List Report :=
  match generate_texture_paths props row col with
  | Except.error e => (Except.error e, [], [])
  | Except.ok tp =>
    match tp.1 with
    | none => (Except.ok OpResult.CANCELLED, [], [])
    | some heightmap_path =>
      match loadImage heightmap_path with
      | none =>
        (Except.ok OpResult.CANCELLED, [], [Report.failedLoadImage heightmap_path])
      | some img =>
        let plane0 := prepare_plane 100 0
        let plane1 := apply_displacement img props.displacement_strength
          props.subdivision_levels plane0
        let am := assign_material loadImage tp.2.1 tp.2.2 props.invert_roughness_map
        let planeF : BObject :=
          { grid := plane1.grid,
            location := ⟨(col : ℚ) * 10, -((row : ℚ) * 10), plane1.location.z⟩,
            modifiers := plane1.modifiers }
        (Except.ok OpResult.FINISHED,
         [{ row := row, col := col, obj := planeF, material := am.1 }],
         am.2)

/-- Model of OBJECT_OT_generate_stl_tiles.generate_tile_for_stl.  The
single_heightmap flag is accepted but, exactly as in the source, never
read.  The plane is deleted after export, so only the exported file
survives; the control-flow outcome and the persisting side effects are
separated as in the render builder. -/
def generate_tile_for_stl (loadImage : LoadImage) (props : Props) (row col : Nat)
    (single_heightmap : Bool) : Except PyExn OpResult × List ExportedFile × List Report :=
  match generate_heightmap_path props.start_tile_file row col with
  | Except.error e => (Except.error e, [], [])
  | Except.ok hp =>
    match hp with
    | none => (Except.ok OpResult.CANCELLED, [], [])
    | some heightmap_path =>
      match loadImage heightmap_path with
      | none =>
        (Except.ok OpResult.CANCELLED, [], [Report.failedLoadImage heightmap_path])
      | some img =>
        let plane0 := prepare_plane 100 props.tile_thickness
        let plane1 := apply_displacement img props.displacement_strength
          props.subdivision_levels plane0
        let plane2 := transform_apply_loc plane1
        let solid0 := extrudeDown (props.tile_thickness * 2) plane2.grid.verts
        let solid1 := solid0.map (fun v => v.add plane2.location)
        let solid := flattenBase solid1
        let export_path := os_path_join props.output_dir
          ((os_path_splitext (os_path_split heightmap_path).2).1
            ++ ('.' :: 's' :: 't' :: 'l' :: []))
        (Except.ok OpResult.FINISHED,
         [{ row := row, col := col, path := export_path, verts := solid }],
         [Report.stlGenerated export_path])

/-- Row-major traversal of the grid, as the nested for row / for col loops
produce it. -/
def rowMajor (rows cols : Nat) : List (Nat × Nat) :=
  (List.range rows).flatMap (fun r => (List.range cols).map (fun c => (r, c)))

/-- The nested loop shared by both execute methods: build tiles in order.
An exception from a tile build propagates out of the loop; a CANCELLED
result returns early.  Either way, the tiles and reports already produced
(side effects) persist and accumulate through the recursion. -/
def runTiles {α : Type} (step : Nat × Nat → Except PyExn OpResult × List α × List Report) :
    List (Nat × Nat) → Except PyExn OpResult × List α × List Report
  | [] => (Except.ok OpResult.FINISHED, [], [])
  | rc :: rest =>
    let s := step rc
    match s.1 with
    | Except.error e => (Except.error e, s.2.1, s.2.2)
    | Except.ok r =>
      if r = OpResult.CANCELLED then s
      else
        let out := runTiles step rest
        (out.1, s.2.1 ++ out.2.1, s.2.2 ++ out.2.2)

/-- Model of OBJECT_OT_generate_render_tiles.execute. -/
def generate_render_tiles_execute (loadImage : LoadImage) (props : Props) :
    Except PyExn OpResult × List RenderTile × List Report :=
  let single_heightmap := props.num_rows == 1 && props.num_cols == 1
  runTiles (fun rc => generate_tile_for_render loadImage props rc.1 rc.2 single_heightmap)
    (rowMajor props.num_rows props.num_cols)

/-- Model of OBJECT_OT_generate_stl_tiles.execute. -/
def generate_stl_tiles_execute (loadImage : LoadImage) (props : Props) :
    Except PyExn OpResult × List ExportedFile × List Report :=
  let single_heightmap := props.num_rows == 1 && props.num_cols == 1
  runTiles (fun rc => generate_tile_for_stl loadImage props rc.1 rc.2 single_heightmap)
    (rowMajor props.num_rows props.num_cols)

/-- A grid cell of the STL command fails when its heightmap path resolution
raises, returns no path, or its heightmap raster does not load: the tile
build produces no tile there. -/
def heightmapTileFails (loadImage : LoadImage) (props : Props) (rc : Nat × Nat) : Bool :=
  match generate_heightmap_path props.start_tile_file rc.1 rc.2 with
  | Except.error _ => true
  | Except.ok none => true
  | Except.ok (some p) => (loadImage p).isNone

/-- A grid cell of the render command fails when any of its three path
resolutions raises, the heightmap path is absent, or the heightmap raster
does not load: the tile build produces no tile there. -/
def renderTileFails (loadImage : LoadImage) (props : Props) (rc : Nat × Nat) : Bool :=
  match generate_texture_paths props rc.1 rc.2 with
  | Except.error _ => true
  | Except.ok (none, _, _) => true
  | Except.ok (some p, _, _) => (loadImage p).isNone

/-! ## Concrete fixtures used by the witness theorems -/

/-- A constant zero raster. -/
def zeroImg : Img := fun _ _ => 0

/-- A host on which every image load succeeds. -/
def loadAll : LoadImage := fun _ => some zeroImg

/-- A host on which exactly the given path fails to load. -/
def loadAllBut (bad : List Char) : LoadImage :=
  fun p => if p = bad then none else some zeroImg

/-- Baseline property values for the fixtures. -/
def baseProps : Props :=
  { num_rows := 1
    num_cols := 1
    displacement_strength := 1
    subdivision_levels := 3
    start_tile_file := "a_y0_x0.png".toList
    tile_thickness := 1
    output_dir := "out".toList
    texture_file := []
    roughness_file := []
    invert_roughness_map := false }

/-- Single-tile configuration whose start filename has no coordinate
suffix. -/
def propsFlat : Props :=
  { baseProps with start_tile_file := "flat.png".toList }

/-- Two-by-two grid configuration starting from a_y0_x0.png. -/
def propsGrid2 : Props :=
  { baseProps with num_rows := 2, num_cols := 2 }

/-- Render configuration with texture and roughness start files. -/
def propsTex : Props :=
  { baseProps with texture_file := "t_y0_x0.png".toList,
                   roughness_file := "r_y0_x0.png".toList }

/-! ## Lemmas about the coordinate scanner -/

theorem dropWhile_head_false (p : Char → Bool) (l : List Char) (e : Char) (r : List Char)
    (h : l.dropWhile p = e :: r) : p e = false := by
  induction l with
  | nil => simp at h
  | cons a as ih =>
    rw [List.dropWhile_cons] at h
    by_cases hp : p a
    · rw [if_pos hp] at h
      exact ih h
    · rw [if_neg hp] at h
      obtain ⟨rfl, -⟩ := List.cons.injEq .. ▸ h
      simpa using hp

theorem takeWhile_dropWhile_nil (p : Char → Bool) (l : List Char) :
    (l.dropWhile p).takeWhile p = [] := by
  cases hdw : l.dropWhile p with
  | nil => rfl
  | cons e r =>
    exact List.takeWhile_cons_of_neg (by simp [dropWhile_head_false p l e r hdw])

theorem dropWhile_eq_self_of_takeWhile_nil (p : Char → Bool) (l : List Char)
    (h : l.takeWhile p = []) : l.dropWhile p = l := by
  have h2 := List.takeWhile_append_dropWhile p l
  rw [h] at h2
  simpa using h2

/-- The scanner accepts a well-formed coordinate pattern placed at the head
of the string, provided the trailing text does not begin with a digit. -/
theorem matchAt_mk (yds xds r : List Char) (hy : yds ≠ [])
    (hyd : ∀ c ∈ yds, Char.isDigit c = true) (hx : xds ≠ [])
    (hxd : ∀ c ∈ xds, Char.isDigit c = true) (hr : r.takeWhile Char.isDigit = []) :
    matchAt ('_' :: 'y' :: (yds ++ '_' :: 'x' :: (xds ++ r))) = some (yds, xds, r) := by
  have h1 : (yds ++ '_' :: 'x' :: (xds ++ r)).takeWhile Char.isDigit = yds := by
    rw [List.takeWhile_append_of_pos hyd, List.takeWhile_cons_of_neg (by decide)]
    simp
  have h2 : (yds ++ '_' :: 'x' :: (xds ++ r)).dropWhile Char.isDigit
      = '_' :: 'x' :: (xds ++ r) := by
    rw [List.dropWhile_append_of_pos hyd, List.dropWhile_cons_of_neg (by decide)]
  have h3 : (xds ++ r).takeWhile Char.isDigit = xds := by
    rw [List.takeWhile_append_of_pos hxd, hr]
    simp
  have h4 : (xds ++ r).dropWhile Char.isDigit = r := by
    rw [List.dropWhile_append_of_pos hxd, dropWhile_eq_self_of_takeWhile_nil _ _ hr]
  simp [matchAt, h1, h2, h3, h4, hy, hx]

/-- Everything a successful head match implies about the string. -/
theorem matchAt_sound (s yds xds r : List Char) (h : matchAt s = some (yds, xds, r)) :
    s = '_' :: 'y' :: (yds ++ '_' :: 'x' :: (xds ++ r)) ∧ yds ≠ [] ∧ xds ≠ [] ∧
      (∀ c ∈ yds, Char.isDigit c = true) ∧ (∀ c ∈ xds, Char.isDigit c = true) ∧
      r.takeWhile Char.isDigit = [] := by
  unfold matchAt at h
  split at h
  · split at h
    · rename_i c1 c2 t hc
      obtain ⟨rfl, rfl⟩ := hc
      split at h
      · rename_i d1 d2 t2 hdw
        split at h
        · split at h
          · rename_i hg hx2
            obtain ⟨hy1, rfl, rfl⟩ := hg
            obtain ⟨rfl, rfl, rfl⟩ := Prod.mk.injEq .. ▸ Option.some.injEq .. ▸ h
            refine ⟨?_, hy1, hx2, ?_, ?_, takeWhile_dropWhile_nil _ _⟩
            · have ht : t.takeWhile Char.isDigit ++ t.dropWhile Char.isDigit = t :=
                List.takeWhile_append_dropWhile _ _
              have ht2 : t2.takeWhile Char.isDigit ++ t2.dropWhile Char.isDigit = t2 :=
                List.takeWhile_append_dropWhile _ _
              rw [hdw] at ht
              rw [ht2, ht]
            · exact fun c hc => List.mem_takeWhile_imp hc
            · exact fun c hc => List.mem_takeWhile_imp hc
          · simp at h
        · simp at h
      · simp at h
    · simp at h
  · simp at h

theorem takeWhile_nil_of_append (p : Char → Bool) (a b : List Char)
    (h : (a ++ b).takeWhile p = []) : a.takeWhile p = [] := by
  cases a with
  | nil => rfl
  | cons c a2 =>
    rw [List.cons_append, List.takeWhile_cons] at h
    rw [List.takeWhile_cons]
    by_cases hp : p c
    · rw [if_pos hp] at h
      simp at h
    · rw [if_neg hp]

/-- A string on which the scanner fails at the head keeps failing there when
more text starting with the underscore-y literal is appended: completing the
pattern would need a digit where the appended text offers an underscore. -/
theorem matchAt_extend (l t : List Char) (hne : l ≠ []) (h : matchAt l = none) :
    matchAt (l ++ '_' :: 'y' :: t) = none := by
  cases hm : matchAt (l ++ '_' :: 'y' :: t) with
  | none => rfl
  | some v =>
    obtain ⟨yds, xds, r⟩ := v
    obtain ⟨hs, hy, hx, hyd, hxd, hr⟩ := matchAt_sound _ _ _ _ hm
    match l, hs with
    | [], _ => exact absurd rfl hne
    | [c], hs =>
      rw [List.cons_append, List.nil_append] at hs
      injection hs with h1 hs2
      injection hs2 with h2 hs3
      exact absurd h2 (by decide)
    | c1 :: c2 :: l2, hs =>
      rw [List.cons_append, List.cons_append] at hs
      injection hs with h1 hs2
      injection hs2 with h2 hs3
      subst h1 h2
      rcases List.append_eq_append_iff.mp hs3 with ⟨a1, hyds, hT⟩ | ⟨m1, hl2, hS⟩
      · cases a1 with
        | nil =>
          rw [List.nil_append] at hT
          injection hT with _ hT2
          injection hT2 with hxy _
          exact absurd hxy (by decide)
        | cons e a2 =>
          rw [List.cons_append] at hT
          injection hT with he _
          subst he
          have hmem : ('_' : Char) ∈ yds :=
            hyds ▸ List.mem_append_right l2 (List.mem_cons_self _ _)
          exact absurd (hyd '_' hmem) (by decide)
      · cases m1 with
        | nil =>
          rw [List.nil_append] at hS
          injection hS with _ hS2
          injection hS2 with hxy _
          exact absurd hxy (by decide)
        | cons e m2 =>
          rw [List.cons_append] at hS
          injection hS with he hS2
          subst he
          cases m2 with
          | nil =>
            rw [List.nil_append] at hS2
            injection hS2 with hxy _
            exact absurd hxy (by decide)
          | cons f m3 =>
            rw [List.cons_append] at hS2
            injection hS2 with hf hS3
            subst hf
            rcases List.append_eq_append_iff.mp hS3 with ⟨a2, hm3, hrr⟩ | ⟨b2, hxds, hT2⟩
            · have ha2 : a2.takeWhile Char.isDigit = [] := by
                rw [hrr] at hr
                exact takeWhile_nil_of_append _ _ _ hr
              rw [hl2, hm3] at h
              rw [matchAt_mk yds xds a2 hy hyd hx hxd ha2] at h
              exact absurd h (by simp)
            · cases b2 with
              | nil =>
                rw [List.append_nil] at hxds
                rw [hl2] at h
                rw [← hxds] at h
                have hmk := matchAt_mk yds xds [] hy hyd hx hxd rfl
                rw [List.append_nil] at hmk
                rw [hmk] at h
                simp at h
              | cons g b3 =>
                rw [List.cons_append] at hT2
                injection hT2 with hg _
                have hmem : ('_' : Char) ∈ xds := by
                  rw [hxds, ← hg]
                  exact List.mem_append_right m3 (List.mem_cons_self _ _)
                exact absurd (hxd '_' hmem) (by decide)

theorem searchYX_none_inv (c : Char) (cs : List Char) (h : searchYX (c :: cs) = none) :
    matchAt (c :: cs) = none ∧ searchYX cs = none := by
  rw [searchYX] at h
  cases hma : matchAt (c :: cs) with
  | some v =>
    obtain ⟨a, b, r⟩ := v
    rw [hma] at h
    simp at h
  | none =>
    rw [hma] at h
    refine ⟨rfl, ?_⟩
    cases hs : searchYX cs with
    | none => rfl
    | some m =>
      rw [hs] at h
      simp at h

/-- The search finds the coordinate pattern right after a prefix that does
not itself contain it. -/
theorem searchYX_mk (pre yds xds rest : List Char) (hpre : searchYX pre = none)
    (hy : yds ≠ []) (hyd : ∀ c ∈ yds, Char.isDigit c = true)
    (hx : xds ≠ []) (hxd : ∀ c ∈ xds, Char.isDigit c = true)
    (hrest : rest.takeWhile Char.isDigit = []) :
    searchYX (pre ++ '_' :: 'y' :: (yds ++ '_' :: 'x' :: (xds ++ rest)))
      = some ⟨pre, yds, xds, rest⟩ := by
  induction pre with
  | nil =>
    rw [List.nil_append, searchYX, matchAt_mk yds xds rest hy hyd hx hxd hrest]
  | cons c cs ih =>
    obtain ⟨hma, hs⟩ := searchYX_none_inv c cs hpre
    have hext := matchAt_extend (c :: cs) (yds ++ '_' :: 'x' :: (xds ++ rest)) (by simp) hma
    rw [List.cons_append] at hext
    rw [List.cons_append, searchYX, hext, ih hs]
    rfl

/-- Everything a successful search implies about the string. -/
theorem searchYX_sound (s : List Char) (m : YXMatch) (h : searchYX s = some m) :
    s = m.pre ++ '_' :: 'y' :: (m.yds ++ '_' :: 'x' :: (m.xds ++ m.rest)) ∧
      m.yds ≠ [] ∧ m.xds ≠ [] ∧ (∀ c ∈ m.yds, Char.isDigit c = true) ∧
      (∀ c ∈ m.xds, Char.isDigit c = true) ∧ m.rest.takeWhile Char.isDigit = [] := by
  induction s generalizing m with
  | nil => simp [searchYX] at h
  | cons c cs ih =>
    rw [searchYX] at h
    cases hma : matchAt (c :: cs) with
    | some v =>
      obtain ⟨yds, xds, r⟩ := v
      rw [hma] at h
      simp only [Option.some.injEq] at h
      subst h
      obtain ⟨hs, hy, hx, hyd, hxd, hr⟩ := matchAt_sound _ _ _ _ hma
      exact ⟨by simpa using hs, hy, hx, hyd, hxd, hr⟩
    | none =>
      rw [hma] at h
      cases hs : searchYX cs with
      | none =>
        rw [hs] at h
        simp at h
      | some m2 =>
        rw [hs] at h
        simp only [Option.map_some', Option.some.injEq] at h
        subst h
        obtain ⟨E, hy, hx, hyd, hxd, hr⟩ := ih m2 hs
        exact ⟨by simpa using congrArg (c :: ·) E, hy, hx, hyd, hxd, hr⟩

theorem matchAt_isSome_any (yds xds b : List Char) (hy : yds ≠ [])
    (hyd : ∀ c ∈ yds, Char.isDigit c = true) (hx : xds ≠ [])
    (hxd : ∀ c ∈ xds, Char.isDigit c = true) :
    (matchAt ('_' :: 'y' :: (yds ++ '_' :: 'x' :: (xds ++ b)))).isSome = true := by
  have h1 : xds ++ b = (xds ++ b.takeWhile Char.isDigit) ++ b.dropWhile Char.isDigit := by
    rw [List.append_assoc, List.takeWhile_append_dropWhile]
  rw [h1, matchAt_mk yds (xds ++ b.takeWhile Char.isDigit) (b.dropWhile Char.isDigit) hy hyd
    (fun hcon => hx (List.append_eq_nil.mp hcon).1)
    (fun c hc => (List.mem_append.mp hc).elim (hxd c) (fun hm => List.mem_takeWhile_imp hm))
    (takeWhile_dropWhile_nil _ _)]
  rfl

theorem searchYX_complete (s : List Char) (h : containsYXPattern s) :
    (searchYX s).isSome = true := by
  obtain ⟨a, yds, xds, b, hy, hx, hyd, hxd, rfl⟩ := h
  induction a with
  | nil =>
    rw [List.nil_append, searchYX]
    cases hma : matchAt ('_' :: 'y' :: (yds ++ '_' :: 'x' :: (xds ++ b))) with
    | some v =>
      obtain ⟨p, q, r⟩ := v
      simp
    | none =>
      have hcon := matchAt_isSome_any yds xds b hy hyd hx hxd
      rw [hma] at hcon
      simp at hcon
  | cons c a2 ih =>
    rw [List.cons_append, searchYX]
    cases hma : matchAt (c :: (a2 ++ '_' :: 'y' :: (yds ++ '_' :: 'x' :: (xds ++ b)))) with
    | some v =>
      obtain ⟨p, q, r⟩ := v
      simp
    | none =>
      cases hs : searchYX (a2 ++ '_' :: 'y' :: (yds ++ '_' :: 'x' :: (xds ++ b))) with
      | none =>
        rw [hs] at ih
        simp at ih
      | some m =>
        simp

/-- The search succeeds exactly on strings containing the coordinate
pattern. -/
theorem containsYXPattern_iff_searchYX (s : List Char) :
    containsYXPattern s ↔ (searchYX s).isSome = true := by
  constructor
  · exact searchYX_complete s
  · intro h
    cases hs : searchYX s with
    | none =>
      rw [hs] at h
      simp at h
    | some m =>
      obtain ⟨E, hy, hx, hyd, hxd, hr⟩ := searchYX_sound s m hs
      exact ⟨m.pre, m.yds, m.xds, m.rest, hy, hx, hyd, hxd, E⟩

/-! ## Lemmas about the path helpers -/

theorem rfindIdx_eq_none (c : Char) (l : List Char) (h : ∀ x ∈ l, x ≠ c) :
    rfindIdx c l = none := by
  induction l with
  | nil => rfl
  | cons a as ih =>
    rw [rfindIdx, ih (fun x hx => h x (List.mem_cons_of_mem a hx))]
    rw [if_neg (h a (List.mem_cons_self a as))]

theorem rfindIdx_append_no (c : Char) (l r : List Char) (h : ∀ x ∈ r, x ≠ c) :
    rfindIdx c (l ++ r) = rfindIdx c l := by
  induction l with
  | nil => exact rfindIdx_eq_none c r h
  | cons a as ih =>
    rw [List.cons_append, rfindIdx, ih, rfindIdx]

theorem rfindIdx_append_last (c : Char) (l r : List Char) (h : ∀ x ∈ r, x ≠ c) :
    rfindIdx c (l ++ c :: r) = some l.length := by
  induction l with
  | nil =>
    rw [List.nil_append, rfindIdx, rfindIdx_eq_none c r h]
    simp
  | cons a as ih =>
    rw [List.cons_append, rfindIdx, ih]
    rfl

theorem os_path_split_eq_none (p : List Char) (h : rfindIdx '/' p = none) :
    os_path_split p = ([], p) := by
  rw [os_path_split, h]

theorem os_path_split_eq_some (p : List Char) (i : Nat) (h : rfindIdx '/' p = some i) :
    os_path_split p =
      (if (p.take (i + 1)).all (fun c => c = '/') then p.take (i + 1)
       else rstripSlash (p.take (i + 1)), p.drop (i + 1)) := by
  rw [os_path_split, h]

theorem os_path_splitext_eq_none (p : List Char) (h : rfindIdx '.' p = none) :
    os_path_splitext p = (p, []) := by
  rw [os_path_splitext, h]

theorem os_path_splitext_eq_some (p : List Char) (i : Nat) (h : rfindIdx '.' p = some i) :
    os_path_splitext p =
      (if (p.take i).all (fun c => c = '.') then (p, [])
       else (p.take i, p.drop i)) := by
  rw [os_path_splitext, h]

/-- Splitting a pure filename (no separator) leaves it whole with an empty
directory. -/
theorem os_path_split_nodir (f : List Char) (h : ∀ x ∈ f, x ≠ '/') :
    os_path_split f = ([], f) :=
  os_path_split_eq_none f (rfindIdx_eq_none '/' f h)

/-- Splitting a path assembled from a directory part ending in a slash and a
slash-free filename recovers the filename; the directory part keeps runs of
slashes only when it consists of nothing else. -/
theorem os_path_split_dir (d f : List Char) (h : ∀ x ∈ f, x ≠ '/') :
    os_path_split ((d ++ ['/']) ++ f)
      = (if (d ++ ['/']).all (fun c => c = '/') then d ++ ['/'] else rstripSlash (d ++ ['/']), f) := by
  have hr : rfindIdx '/' ((d ++ ['/']) ++ f) = some d.length := by
    rw [List.append_assoc, List.singleton_append]
    exact rfindIdx_append_last '/' d f h
  have hlen : (d ++ ['/']).length = d.length + 1 := by simp
  rw [os_path_split_eq_some _ _ hr]
  rw [show d.length + 1 = (d ++ ['/']).length from hlen.symm]
  rw [List.take_left, List.drop_left]

/-- Shape of the directory component returned by the split: empty, all
slashes, or ending in something other than a slash. -/
theorem rstripSlash_shape (l : List Char) :
    rstripSlash l = [] ∨ (rstripSlash l).getLast? ≠ some '/' := by
  cases hdw : l.reverse.dropWhile (fun c => c = '/') with
  | nil => left; rw [rstripSlash, hdw]; rfl
  | cons e r =>
    right
    rw [rstripSlash, hdw, List.getLast?_eq_head?_reverse, List.reverse_reverse]
    have he := dropWhile_head_false _ _ _ _ hdw
    simp only [List.head?_cons]
    intro hcon
    rw [Option.some.injEq] at hcon
    rw [hcon] at he
    simp at he

theorem split_head_shape (p : List Char) :
    (os_path_split p).1 = [] ∨ (os_path_split p).1.all (fun c => c = '/') = true ∨
      (os_path_split p).1.getLast? ≠ some '/' := by
  cases hfi : rfindIdx '/' p with
  | none =>
    rw [os_path_split_eq_none p hfi]
    left
    rfl
  | some i =>
    rw [os_path_split_eq_some p i hfi]
    by_cases hall : ((p.take (i + 1)).all (fun c => c = '/')) = true
    · rw [if_pos hall]
      right
      left
      exact hall
    · rw [if_neg hall]
      rcases rstripSlash_shape (p.take (i + 1)) with h | h
      · left
        exact h
      · right
        right
        exact h

/-- Joining a directory in the image of the split with a slash-free filename
and splitting again is the identity. -/
theorem os_path_split_join (d f : List Char)
    (hd : d = [] ∨ d.all (fun c => c = '/') = true ∨ d.getLast? ≠ some '/')
    (hf : ∀ x ∈ f, x ≠ '/') :
    os_path_split (os_path_join d f) = (d, f) := by
  have hfh : f.head? ≠ some '/' := by
    cases f with
    | nil => simp
    | cons a as =>
      simp only [List.head?_cons]
      intro hcon
      rw [Option.some.injEq] at hcon
      exact hf a (List.mem_cons_self a as) hcon
  rcases hd with rfl | hall | hlast
  · rw [os_path_join, if_neg hfh]
    rw [if_pos (Or.inl rfl), List.nil_append]
    exact os_path_split_nodir f hf
  · cases hdd : d.reverse with
    | nil =>
      have : d = [] := by simpa using congrArg List.reverse hdd
      subst this
      rw [os_path_join, if_neg hfh, if_pos (Or.inl rfl), List.nil_append]
      exact os_path_split_nodir f hf
    | cons e r =>
      have hd2 : d = r.reverse ++ [e] := by
        have := congrArg List.reverse hdd
        simpa using this
      have he : e = '/' := by
        have : e ∈ d := by rw [hd2]; exact List.mem_append_right _ (List.mem_cons_self _ _)
        have := List.all_eq_true.mp hall e this
        simpa using this
      subst he
      have hlast2 : d.getLast? = some '/' := by
        rw [hd2, List.getLast?_eq_head?_reverse]
        simp
      rw [os_path_join, if_neg hfh, if_pos (Or.inr hlast2)]
      rw [hd2, os_path_split_dir r.reverse f hf]
      have hall2 : (r.reverse ++ ['/']).all (fun c => c = '/') = true := by
        rw [← hd2]; exact hall
      rw [if_pos hall2]
  · cases hdd : d.reverse with
    | nil =>
      have : d = [] := by simpa using congrArg List.reverse hdd
      subst this
      rw [os_path_join, if_neg hfh, if_pos (Or.inl rfl), List.nil_append]
      exact os_path_split_nodir f hf
    | cons e r =>
      have hd2 : d = r.reverse ++ [e] := by
        have := congrArg List.reverse hdd
        simpa using this
      have he : e ≠ '/' := by
        intro hcon
        apply hlast
        rw [List.getLast?_eq_head?_reverse, hdd, hcon]
        rfl
      have hdne : ¬(d = [] ∨ d.getLast? = some '/') := by
        rintro (rfl | hcon)
        · simp at hdd
        · apply he
          rw [List.getLast?_eq_head?_reverse, hdd] at hcon
          simpa using hcon
      rw [os_path_join, if_neg hfh, if_neg hdne]
      have hsplit : os_path_split ((d ++ ['/']) ++ f)
          = (if (d ++ ['/']).all (fun c => c = '/') then d ++ ['/']
             else rstripSlash (d ++ ['/']), f) := os_path_split_dir d f hf
      have hnall : ¬((d ++ ['/']).all (fun c => c = '/') = true) := by
        intro hcon
        apply he
        have : e ∈ d := by rw [hd2]; exact List.mem_append_right _ (List.mem_cons_self _ _)
        have := List.all_eq_true.mp hcon e (List.mem_append_left _ this)
        simpa using this
      rw [if_neg hnall] at hsplit
      have hstrip : rstripSlash (d ++ ['/']) = d := by
        rw [rstripSlash, List.reverse_append]
        simp only [List.reverse_cons, List.reverse_nil, List.nil_append, List.singleton_append]
        rw [List.dropWhile_cons_of_pos (by simp), hdd]
        rw [List.dropWhile_cons_of_neg (by simpa using he)]
        rw [← hdd, List.reverse_reverse]
      rw [hstrip] at hsplit
      have hjoin : d ++ '/' :: f = (d ++ ['/']) ++ f := by
        rw [List.append_assoc, List.singleton_append]
      rw [hjoin]
      exact hsplit

/-- Splitting off the extension of a filename assembled from a stem that
contains an underscore and a dotted extension whose body is dot-free
recovers the two parts (the stem itself may contain further dots). -/
theorem os_path_splitext_assemble (stem ebody : List Char)
    (hdot : ∀ x ∈ ebody, x ≠ '.') (hus : '_' ∈ stem) :
    os_path_splitext (stem ++ '.' :: ebody) = (stem, '.' :: ebody) := by
  have hfi : rfindIdx '.' (stem ++ '.' :: ebody) = some stem.length :=
    rfindIdx_append_last '.' stem ebody hdot
  rw [os_path_splitext_eq_some _ _ hfi]
  have hna : ¬(((stem ++ '.' :: ebody).take stem.length).all (fun c => c = '.') = true) := by
    rw [List.take_left]
    intro hcon
    have := List.all_eq_true.mp hcon '_' hus
    simp at this
  rw [if_neg hna, List.take_left, List.drop_left]

theorem digit_ne_slash (c : Char) (h : Char.isDigit c = true) : c ≠ '/' := by
  rintro rfl
  exact absurd h (by decide)

theorem digit_ne_dot (c : Char) (h : Char.isDigit c = true) : c ≠ '.' := by
  rintro rfl
  exact absurd h (by decide)

theorem toDigitsCore_digits (fuel : Nat) : ∀ (n : Nat) (ds : List Char),
    (∀ c ∈ ds, Char.isDigit c = true) →
    ∀ c ∈ Nat.toDigitsCore 10 fuel n ds, Char.isDigit c = true := by
  induction fuel with
  | zero =>
    intro n ds hds
    rw [Nat.toDigitsCore]
    exact hds
  | succ f ih =>
    intro n ds hds
    have hd : Char.isDigit (Nat.digitChar (n % 10)) = true := by
      have h10 : n % 10 < 10 := Nat.mod_lt _ (by norm_num)
      interval_cases h : n % 10 <;> decide
    have hds2 : ∀ c ∈ Nat.digitChar (n % 10) :: ds, Char.isDigit c = true := by
      intro c hc
      rcases List.mem_cons.mp hc with rfl | hc2
      · exact hd
      · exact hds c hc2
    simp only [Nat.toDigitsCore]
    by_cases hz : n / 10 = 0
    · rw [if_pos hz]
      exact hds2
    · rw [if_neg hz]
      exact ih (n / 10) _ hds2

/-- Every character of the decimal rendering is a digit. -/
theorem natRepr_digits (n : Nat) : ∀ c ∈ natRepr n, Char.isDigit c = true := by
  rw [natRepr, Nat.toDigits]
  exact toDigitsCore_digits (n + 1) n [] (by intro c hc; simp at hc)

/-! ## Equation lemmas for the resolvers -/

theorem generate_heightmap_path_raises (p : List Char) (row col : Nat)
    (h : searchYX (pathStem p) = none) :
    generate_heightmap_path p row col = Except.error PyExn.attributeError := by
  rw [generate_heightmap_path, h]

theorem generate_heightmap_path_eq_some (p : List Char) (row col : Nat) (m : YXMatch)
    (h : searchYX (pathStem p) = some m) :
    generate_heightmap_path p row col
      = Except.ok (some (os_path_join (os_path_split p).1
          (m.pre ++ ('_' :: 'y' :: natRepr (parseDigits m.yds + row))
                 ++ ('_' :: 'x' :: natRepr (parseDigits m.xds + col))
                 ++ (os_path_splitext (os_path_split p).2).2))) := by
  rw [generate_heightmap_path, h]

/-- A nonempty input makes the optional-input resolver behave exactly like
the heightmap resolver (the two function bodies are the same code). -/
theorem gtr_eq_heightmap (p : List Char) (row col : Nat) (hne : p ≠ []) :
    generate_texture_or_roughness_path p row col
      = generate_heightmap_path p row col := by
  rw [generate_texture_or_roughness_path, if_neg hne, generate_heightmap_path]

/-- Central lemma for the path resolver: on a base path assembled from a
directory part, a pattern-free prefix, the coordinate pattern, arbitrary
trailing stem text not starting with a digit, and a dotted extension, the
heightmap resolver succeeds, keeps the directory, prefix and extension,
drops the trailing text, and adds the offsets to the parsed coordinates. -/
theorem resolve_shape (dir pre yds xds rest ebody : List Char) (row col : Nat)
    (hdir : dir = [] ∨ ∃ d2, dir = d2 ++ ['/'])
    (hpre_slash : ∀ x ∈ pre, x ≠ '/')
    (hpre : searchYX pre = none)
    (hy : yds ≠ []) (hyd : ∀ c ∈ yds, Char.isDigit c = true)
    (hx : xds ≠ []) (hxd : ∀ c ∈ xds, Char.isDigit c = true)
    (hrest_d : rest.takeWhile Char.isDigit = [])
    (hrest_slash : ∀ x ∈ rest, x ≠ '/')
    (hext_dot : ∀ x ∈ ebody, x ≠ '.')
    (hext_slash : ∀ x ∈ ebody, x ≠ '/') :
    generate_heightmap_path
        (dir ++ (pre ++ '_' :: 'y' :: (yds ++ '_' :: 'x' :: (xds ++ rest))) ++ '.' :: ebody)
        row col
      = Except.ok (some (os_path_join
          (os_path_split
            (dir ++ (pre ++ '_' :: 'y' :: (yds ++ '_' :: 'x' :: (xds ++ rest))) ++ '.' :: ebody)).1
          (pre ++ ('_' :: 'y' :: natRepr (parseDigits yds + row))
               ++ ('_' :: 'x' :: natRepr (parseDigits xds + col)) ++ '.' :: ebody)))
    ∧ os_path_split (os_path_join
        (os_path_split
          (dir ++ (pre ++ '_' :: 'y' :: (yds ++ '_' :: 'x' :: (xds ++ rest))) ++ '.' :: ebody)).1
        (pre ++ ('_' :: 'y' :: natRepr (parseDigits yds + row))
             ++ ('_' :: 'x' :: natRepr (parseDigits xds + col)) ++ '.' :: ebody))
      = ((os_path_split
          (dir ++ (pre ++ '_' :: 'y' :: (yds ++ '_' :: 'x' :: (xds ++ rest))) ++ '.' :: ebody)).1,
         pre ++ ('_' :: 'y' :: natRepr (parseDigits yds + row))
             ++ ('_' :: 'x' :: natRepr (parseDigits xds + col)) ++ '.' :: ebody) := by
  set stem := pre ++ '_' :: 'y' :: (yds ++ '_' :: 'x' :: (xds ++ rest)) with hstem
  set fname := stem ++ '.' :: ebody with hfname
  set newF := pre ++ ('_' :: 'y' :: natRepr (parseDigits yds + row))
      ++ ('_' :: 'x' :: natRepr (parseDigits xds + col)) ++ '.' :: ebody with hnewF
  set basePath := dir ++ stem ++ '.' :: ebody with hbase
  have hbase2 : basePath = dir ++ fname := by
    rw [hbase, hfname, List.append_assoc]
  -- the assembled filename is slash-free
  have hfname_slash : ∀ x ∈ fname, x ≠ '/' := by
    rw [hfname, List.forall_mem_append]
    refine ⟨?_, ?_⟩
    · rw [hstem, List.forall_mem_append]
      refine ⟨hpre_slash, ?_⟩
      rw [List.forall_mem_cons]
      refine ⟨by decide, ?_⟩
      rw [List.forall_mem_cons]
      refine ⟨by decide, ?_⟩
      rw [List.forall_mem_append]
      refine ⟨fun c hc => digit_ne_slash c (hyd c hc), ?_⟩
      rw [List.forall_mem_cons]
      refine ⟨by decide, ?_⟩
      rw [List.forall_mem_cons]
      refine ⟨by decide, ?_⟩
      rw [List.forall_mem_append]
      exact ⟨fun c hc => digit_ne_slash c (hxd c hc), hrest_slash⟩
    · rw [List.forall_mem_cons]
      exact ⟨by decide, hext_slash⟩
  -- the rebuilt filename is slash-free as well
  have hnewF_slash : ∀ x ∈ newF, x ≠ '/' := by
    rw [hnewF, List.forall_mem_append, List.forall_mem_append, List.forall_mem_append]
    refine ⟨⟨⟨hpre_slash, ?_⟩, ?_⟩, ?_⟩
    · rw [List.forall_mem_cons]
      refine ⟨by decide, ?_⟩
      rw [List.forall_mem_cons]
      exact ⟨by decide, fun c hc => digit_ne_slash c (natRepr_digits _ c hc)⟩
    · rw [List.forall_mem_cons]
      refine ⟨by decide, ?_⟩
      rw [List.forall_mem_cons]
      exact ⟨by decide, fun c hc => digit_ne_slash c (natRepr_digits _ c hc)⟩
    · rw [List.forall_mem_cons]
      exact ⟨by decide, hext_slash⟩
  -- the split returns the filename as second component
  have hsnd : (os_path_split basePath).2 = fname := by
    rcases hdir with rfl | ⟨d2, rfl⟩
    · rw [hbase2, List.nil_append, os_path_split_nodir fname hfname_slash]
    · rw [hbase2, os_path_split_dir d2 fname hfname_slash]
  -- the extension split recovers stem and extension
  have hse : os_path_splitext fname = (stem, '.' :: ebody) := by
    rw [hfname]
    refine os_path_splitext_assemble stem ebody hext_dot ?_
    rw [hstem]
    exact List.mem_append_right pre (List.mem_cons_self _ _)
  -- the regex search finds the pattern after the prefix
  have hsearch : searchYX stem = some ⟨pre, yds, xds, rest⟩ := by
    rw [hstem]
    exact searchYX_mk pre yds xds rest hpre hy hyd hx hxd hrest_d
  have h1 := generate_heightmap_path_eq_some basePath row col ⟨pre, yds, xds, rest⟩
    (by rw [pathStem, hsnd, hse]; exact hsearch)
  constructor
  · rw [hsnd, hse] at h1
    exact h1
  · exact os_path_split_join (os_path_split basePath).1 newF
      (split_head_shape basePath) hnewF_slash

/-! ## Equation lemmas for generate_texture_paths and the per-tile builders -/

theorem generate_texture_paths_err_hm (props : Props) (row col : Nat) (e : PyExn)
    (hh : generate_heightmap_path props.start_tile_file row col = Except.error e) :
    generate_texture_paths props row col = Except.error e := by
  rw [generate_texture_paths, hh]

theorem generate_texture_paths_ok (props : Props) (row col : Nat)
    (h t r : Option (List Char))
    (hh : generate_heightmap_path props.start_tile_file row col = Except.ok h)
    (ht : generate_texture_or_roughness_path props.texture_file row col = Except.ok t)
    (hr : generate_texture_or_roughness_path props.roughness_file row col = Except.ok r) :
    generate_texture_paths props row col = Except.ok (h, t, r) := by
  rw [generate_texture_paths, hh]
  simp only []
  rw [ht]
  simp only []
  rw [hr]

theorem generate_tile_for_render_raises (loadImage : LoadImage) (props : Props)
    (row col : Nat) (b : Bool) (e : PyExn)
    (htp : generate_texture_paths props row col = Except.error e) :
    generate_tile_for_render loadImage props row col b = (Except.error e, [], []) := by
  simp only [generate_tile_for_render]
  rw [htp]

theorem generate_tile_for_render_no_path (loadImage : LoadImage) (props : Props)
    (row col : Nat) (b : Bool) (t r : Option (List Char))
    (htp : generate_texture_paths props row col = Except.ok (none, t, r)) :
    generate_tile_for_render loadImage props row col b
      = (Except.ok OpResult.CANCELLED, [], []) := by
  simp only [generate_tile_for_render]
  rw [htp]

theorem generate_tile_for_render_no_load (loadImage : LoadImage) (props : Props)
    (row col : Nat) (b : Bool) (hm : List Char) (t r : Option (List Char))
    (htp : generate_texture_paths props row col = Except.ok (some hm, t, r))
    (hload : loadImage hm = none) :
    generate_tile_for_render loadImage props row col b
      = (Except.ok OpResult.CANCELLED, [], [Report.failedLoadImage hm]) := by
  simp only [generate_tile_for_render]
  rw [htp]
  simp only []
  rw [hload]

theorem generate_tile_for_render_built (loadImage : LoadImage) (props : Props)
    (row col : Nat) (b : Bool) (hm : List Char) (t r : Option (List Char)) (img : Img)
    (htp : generate_texture_paths props row col = Except.ok (some hm, t, r))
    (hload : loadImage hm = some img) :
    generate_tile_for_render loadImage props row col b
      = (Except.ok OpResult.FINISHED,
         [{ row := row, col := col,
            obj := { grid := (apply_displacement img props.displacement_strength
                       props.subdivision_levels (prepare_plane 100 0)).grid,
                     location := ⟨(col : ℚ) * 10, -((row : ℚ) * 10),
                       (apply_displacement img props.displacement_strength
                         props.subdivision_levels (prepare_plane 100 0)).location.z⟩,
                     modifiers := (apply_displacement img props.displacement_strength
                       props.subdivision_levels (prepare_plane 100 0)).modifiers },
            material := (assign_material loadImage t r props.invert_roughness_map).1 }],
         (assign_material loadImage t r props.invert_roughness_map).2) := by
  simp only [generate_tile_for_render]
  rw [htp]
  simp only []
  rw [hload]

theorem generate_tile_for_stl_raises (loadImage : LoadImage) (props : Props)
    (row col : Nat) (b : Bool) (e : PyExn)
    (hpath : generate_heightmap_path props.start_tile_file row col = Except.error e) :
    generate_tile_for_stl loadImage props row col b = (Except.error e, [], []) := by
  simp only [generate_tile_for_stl]
  rw [hpath]

theorem generate_tile_for_stl_no_path (loadImage : LoadImage) (props : Props)
    (row col : Nat) (b : Bool)
    (hpath : generate_heightmap_path props.start_tile_file row col = Except.ok none) :
    generate_tile_for_stl loadImage props row col b
      = (Except.ok OpResult.CANCELLED, [], []) := by
  simp only [generate_tile_for_stl]
  rw [hpath]

theorem generate_tile_for_stl_no_load (loadImage : LoadImage) (props : Props)
    (row col : Nat) (b : Bool) (hm : List Char)
    (hpath : generate_heightmap_path props.start_tile_file row col = Except.ok (some hm))
    (hload : loadImage hm = none) :
    generate_tile_for_stl loadImage props row col b
      = (Except.ok OpResult.CANCELLED, [], [Report.failedLoadImage hm]) := by
  simp only [generate_tile_for_stl]
  rw [hpath]
  simp only []
  rw [hload]

theorem generate_tile_for_stl_built (loadImage : LoadImage) (props : Props)
    (row col : Nat) (b : Bool) (hm : List Char) (img : Img)
    (hpath : generate_heightmap_path props.start_tile_file row col = Except.ok (some hm))
    (hload : loadImage hm = some img) :
    generate_tile_for_stl loadImage props row col b
      = (Except.ok OpResult.FINISHED,
         [{ row := row, col := col,
            path := os_path_join props.output_dir
              ((os_path_splitext (os_path_split hm).2).1 ++ ('.' :: 's' :: 't' :: 'l' :: [])),
            verts := flattenBase
              (((extrudeDown (props.tile_thickness * 2)
                  (transform_apply_loc (apply_displacement img props.displacement_strength
                    props.subdivision_levels
                    (prepare_plane 100 props.tile_thickness))).grid.verts)).map
                (fun v => v.add (transform_apply_loc (apply_displacement img
                  props.displacement_strength props.subdivision_levels
                  (prepare_plane 100 props.tile_thickness))).location)) }],
         [Report.stlGenerated (os_path_join props.output_dir
            ((os_path_splitext (os_path_split hm).2).1 ++ ('.' :: 's' :: 't' :: 'l' :: [])))]) := by
  simp only [generate_tile_for_stl]
  rw [hpath]
  simp only []
  rw [hload]

/-! ## Claim theorems: path resolution -/

/-- Claim C3: for every basePath whose stem is a pattern-free prefix followed
by the coordinate pattern, and every rowOffset and colOffset, the heightmap
resolver succeeds with a path in the same directory (second conjunct), with
the same prefix and extension, and with coordinates shifted by the offsets
(first conjunct). -/
theorem C3_resolvePath_adds_offsets
    (basePath dir pre yds xds ebody : List Char) (row col : Nat)
    (hbase : basePath = dir ++ (pre ++ '_' :: 'y' :: (yds ++ '_' :: 'x' :: xds)) ++ '.' :: ebody)
    (hdir : dir = [] ∨ ∃ d2, dir = d2 ++ ['/'])
    (hpre_slash : ∀ x ∈ pre, x ≠ '/')
    (hpre : searchYX pre = none)
    (hy : yds ≠ []) (hyd : ∀ c ∈ yds, Char.isDigit c = true)
    (hx : xds ≠ []) (hxd : ∀ c ∈ xds, Char.isDigit c = true)
    (hext_dot : ∀ x ∈ ebody, x ≠ '.')
    (hext_slash : ∀ x ∈ ebody, x ≠ '/') :
    generate_heightmap_path basePath row col
      = Except.ok (some (os_path_join (os_path_split basePath).1
          (pre ++ ('_' :: 'y' :: natRepr (parseDigits yds + row))
               ++ ('_' :: 'x' :: natRepr (parseDigits xds + col)) ++ '.' :: ebody)))
    ∧ os_path_split (os_path_join (os_path_split basePath).1
        (pre ++ ('_' :: 'y' :: natRepr (parseDigits yds + row))
             ++ ('_' :: 'x' :: natRepr (parseDigits xds + col)) ++ '.' :: ebody))
      = ((os_path_split basePath).1,
         pre ++ ('_' :: 'y' :: natRepr (parseDigits yds + row))
             ++ ('_' :: 'x' :: natRepr (parseDigits xds + col)) ++ '.' :: ebody) := by
  subst hbase
  have h := resolve_shape dir pre yds xds [] ebody row col hdir hpre_slash hpre
    hy hyd hx hxd rfl (by simp) hext_dot hext_slash
  rw [List.append_nil] at h
  exact h

/-- Witness for C3: the concrete scenario of the claim. -/
theorem C3_resolvePath_adds_offsets_witness :
    generate_heightmap_path ("terrain_y2_x5.png".toList) 1 3
      = Except.ok (some ("terrain_y3_x8.png".toList)) := by
  have h := (C3_resolvePath_adds_offsets ("terrain_y2_x5.png".toList) []
    ("terrain".toList) ['2'] ['5'] ("png".toList) 1 3 (by decide) (Or.inl rfl)
    (by decide) (by decide) (by decide) (by decide) (by decide) (by decide)
    (by decide) (by decide)).1
  rw [h]
  rfl

/-- Claim C10: when the stem carries extra characters after the first
coordinate occurrence, resolution drops them: the resolved filename is
prefix, shifted coordinates, extension, with the trailing text nowhere
(first and second conjuncts), and the optional-input resolver behaves
identically on this nonempty input (third conjunct). -/
theorem C10_trailing_stem_text_dropped
    (basePath dir pre yds xds rest ebody : List Char) (row col : Nat)
    (hbase : basePath
      = dir ++ (pre ++ '_' :: 'y' :: (yds ++ '_' :: 'x' :: (xds ++ rest))) ++ '.' :: ebody)
    (hdir : dir = [] ∨ ∃ d2, dir = d2 ++ ['/'])
    (hpre_slash : ∀ x ∈ pre, x ≠ '/')
    (hpre : searchYX pre = none)
    (hy : yds ≠ []) (hyd : ∀ c ∈ yds, Char.isDigit c = true)
    (hx : xds ≠ []) (hxd : ∀ c ∈ xds, Char.isDigit c = true)
    (hrest_ne : rest ≠ [])
    (hrest_d : rest.takeWhile Char.isDigit = [])
    (hrest_slash : ∀ x ∈ rest, x ≠ '/')
    (hext_dot : ∀ x ∈ ebody, x ≠ '.')
    (hext_slash : ∀ x ∈ ebody, x ≠ '/') :
    generate_heightmap_path basePath row col
      = Except.ok (some (os_path_join (os_path_split basePath).1
          (pre ++ ('_' :: 'y' :: natRepr (parseDigits yds + row))
               ++ ('_' :: 'x' :: natRepr (parseDigits xds + col)) ++ '.' :: ebody)))
    ∧ os_path_split (os_path_join (os_path_split basePath).1
        (pre ++ ('_' :: 'y' :: natRepr (parseDigits yds + row))
             ++ ('_' :: 'x' :: natRepr (parseDigits xds + col)) ++ '.' :: ebody))
      = ((os_path_split basePath).1,
         pre ++ ('_' :: 'y' :: natRepr (parseDigits yds + row))
             ++ ('_' :: 'x' :: natRepr (parseDigits xds + col)) ++ '.' :: ebody)
    ∧ generate_texture_or_roughness_path basePath row col
      = generate_heightmap_path basePath row col := by
  subst hbase
  have h := resolve_shape dir pre yds xds rest ebody row col hdir hpre_slash hpre
    hy hyd hx hxd hrest_d hrest_slash hext_dot hext_slash
  refine ⟨h.1, h.2, ?_⟩
  refine gtr_eq_heightmap _ row col ?_
  simp

/-- Witness for C10: the stem terrain_y2_x5_final resolves as if it ended at
the coordinates, for both resolvers. -/
theorem C10_trailing_stem_text_dropped_witness :
    generate_heightmap_path ("terrain_y2_x5_final.png".toList) 1 3
      = Except.ok (some ("terrain_y3_x8.png".toList))
    ∧ generate_texture_or_roughness_path ("terrain_y2_x5_final.png".toList) 1 3
      = Except.ok (some ("terrain_y3_x8.png".toList)) := by
  have h := C10_trailing_stem_text_dropped ("terrain_y2_x5_final.png".toList) []
    ("terrain".toList) ['2'] ['5'] ("_final".toList) ("png".toList) 1 3 (by decide)
    (Or.inl rfl) (by decide) (by decide) (by decide) (by decide) (by decide)
    (by decide) (by decide) (by decide) (by decide) (by decide) (by decide)
  constructor
  · rw [h.1]
    rfl
  · rw [h.2.2, h.1]
    rfl

/-- Claim C6 names behaviour the code does not implement: on a stem without
the coordinate pattern the resolver is meant to return no path after an
ERROR report and let the caller cancel, but the report call is made on the
bpy context, which has no report method, so every such call raises
AttributeError out of the resolver and the None return after it is dead
code; the optional-input resolver raises identically on every nonempty
non-matching input. -/
theorem C6_no_pattern_raises (basePath : List Char) (row col : Nat)
    (h : ¬ containsYXPattern (pathStem basePath)) :
    generate_heightmap_path basePath row col = Except.error PyExn.attributeError
    ∧ (basePath ≠ [] →
        generate_texture_or_roughness_path basePath row col
          = Except.error PyExn.attributeError) := by
  have hs : searchYX (pathStem basePath) = none := by
    cases hcase : searchYX (pathStem basePath) with
    | none => rfl
    | some m =>
      exact absurd ((containsYXPattern_iff_searchYX _).mpr (by rw [hcase]; rfl)) h
  refine ⟨generate_heightmap_path_raises _ row col hs, fun hne => ?_⟩
  rw [gtr_eq_heightmap basePath row col hne]
  exact generate_heightmap_path_raises _ row col hs

/-- Witness for C6 at the concrete no-pattern filename flat.png: both
resolvers raise. -/
theorem C6_no_pattern_raises_witness :
    generate_heightmap_path ("flat.png".toList) 5 7 = Except.error PyExn.attributeError
    ∧ generate_texture_or_roughness_path ("flat.png".toList) 5 7
      = Except.error PyExn.attributeError := by
  have h := C6_no_pattern_raises ("flat.png".toList) 5 7
    (fun hc => by
      have h2 := (containsYXPattern_iff_searchYX _).mp hc
      revert h2
      decide)
  exact ⟨h.1, h.2 (by decide)⟩

/-- Claim C7: an empty optional input short-circuits: for every offset the
optional-input resolver returns no path, raising nothing and reporting
nothing, and a render tile whose optional inputs are both absent still
builds to completion, with both shader inputs left unconnected. -/
theorem C7_empty_optional_input_no_abort :
    (∀ row col : Nat, generate_texture_or_roughness_path [] row col = Except.ok none)
    ∧ (∀ (loadImage : LoadImage) (props : Props) (row col : Nat) (b : Bool)
        (hm : List Char) (img : Img),
        props.texture_file = [] → props.roughness_file = [] →
        generate_heightmap_path props.start_tile_file row col = Except.ok (some hm) →
        loadImage hm = some img →
        (generate_tile_for_render loadImage props row col b).1 = Except.ok OpResult.FINISHED
        ∧ ((generate_tile_for_render loadImage props row col b).2.1).map
            (fun t => t.material)
          = [{ baseColorTex := none, roughnessTex := none, roughnessInverted := false }]) := by
  constructor
  · intro row col
    simp [generate_texture_or_roughness_path]
  · intro loadImage props row col b hm img htex hrough hpath hload
    have ht : generate_texture_or_roughness_path props.texture_file row col
        = Except.ok none := by
      rw [htex]
      simp [generate_texture_or_roughness_path]
    have hr : generate_texture_or_roughness_path props.roughness_file row col
        = Except.ok none := by
      rw [hrough]
      simp [generate_texture_or_roughness_path]
    have htp := generate_texture_paths_ok props row col (some hm) none none hpath ht hr
    rw [generate_tile_for_render_built loadImage props row col b hm none none img htp hload]
    exact ⟨rfl, rfl⟩

/-- Witness for C7: a single tile with empty texture and roughness paths
builds to completion with an unconnected material. -/
theorem C7_empty_optional_input_no_abort_witness :
    (generate_tile_for_render loadAll baseProps 0 0 false).1 = Except.ok OpResult.FINISHED :=
  (C7_empty_optional_input_no_abort.2 loadAll baseProps 0 0 false
    ("a_y0_x0.png".toList) zeroImg rfl rfl rfl rfl).1

/-- Behaviour of assign_material when both optional inputs have resolved
paths: each input is connected exactly when its raster loads; a load failure
produces an ERROR report and leaves the input unconnected; the invert node
exists only for a loaded roughness map with the option set. -/
theorem assign_material_some_some (loadImage : LoadImage) (tp rp : List Char) (inv : Bool) :
    assign_material loadImage (some tp) (some rp) inv
      = ({ baseColorTex := if (loadImage tp).isSome then some tp else none,
           roughnessTex := if (loadImage rp).isSome then some rp else none,
           roughnessInverted := (loadImage rp).isSome && inv },
         (if (loadImage tp).isSome then [Report.loadedTexture tp]
          else [Report.failedLoadTexture tp])
           ++ (if (loadImage rp).isSome then [Report.loadedRoughness rp]
               else [Report.failedLoadRoughness rp])) := by
  simp only [assign_material]
  cases htp : loadImage tp <;> cases hrp : loadImage rp <;> simp

/-- Claim C8: in render mode, with the heightmap resolved and loaded and
both optional paths resolved, the tile build always finishes; each optional
shader input is connected exactly when its raster loads, the displaced
heightmap geometry is used either way, and a failing optional load is
reported. -/
theorem C8_optional_raster_failure_isolated
    (loadImage : LoadImage) (props : Props) (row col : Nat) (b : Bool)
    (hm tp rp : List Char) (img : Img)
    (hpath : generate_heightmap_path props.start_tile_file row col = Except.ok (some hm))
    (htex : generate_texture_or_roughness_path props.texture_file row col
      = Except.ok (some tp))
    (hrough : generate_texture_or_roughness_path props.roughness_file row col
      = Except.ok (some rp))
    (hload : loadImage hm = some img) :
    (generate_tile_for_render loadImage props row col b).1 = Except.ok OpResult.FINISHED
    ∧ ((generate_tile_for_render loadImage props row col b).2.1).map (fun t => t.material)
      = [{ baseColorTex := if (loadImage tp).isSome then some tp else none,
           roughnessTex := if (loadImage rp).isSome then some rp else none,
           roughnessInverted := (loadImage rp).isSome && props.invert_roughness_map }]
    ∧ ((generate_tile_for_render loadImage props row col b).2.1).map (fun t => t.obj.grid)
      = [displaceGrid props.displacement_strength img
          (subsurfSimple props.subdivision_levels (prepare_plane 100 0).grid)]
    ∧ ((loadImage tp).isNone = true →
        Report.failedLoadTexture tp ∈ (generate_tile_for_render loadImage props row col b).2.2)
    ∧ ((loadImage rp).isNone = true →
        Report.failedLoadRoughness rp
          ∈ (generate_tile_for_render loadImage props row col b).2.2) := by
  have htp := generate_texture_paths_ok props row col (some hm) (some tp) (some rp)
    hpath htex hrough
  rw [generate_tile_for_render_built loadImage props row col b hm (some tp) (some rp) img
    htp hload]
  refine ⟨rfl, ?_, rfl, ?_, ?_⟩
  · rw [List.map_cons, List.map_nil, assign_material_some_some]
  · intro hn
    have htn : loadImage tp = none := Option.isNone_iff_eq_none.mp hn
    rw [assign_material_some_some, htn]
    simp
  · intro hn
    have hrn : loadImage rp = none := Option.isNone_iff_eq_none.mp hn
    rw [assign_material_some_some, hrn]
    simp

/-- Witness for C8: the texture raster fails to load, the roughness raster
loads, and the tile still finishes with the failure reported. -/
theorem C8_optional_raster_failure_isolated_witness :
    (generate_tile_for_render (loadAllBut ("t_y0_x0.png".toList)) propsTex 0 0 false).1
      = Except.ok OpResult.FINISHED
    ∧ Report.failedLoadTexture ("t_y0_x0.png".toList)
      ∈ (generate_tile_for_render (loadAllBut ("t_y0_x0.png".toList)) propsTex 0 0 false).2.2 := by
  have h := C8_optional_raster_failure_isolated (loadAllBut ("t_y0_x0.png".toList))
    propsTex 0 0 false ("a_y0_x0.png".toList) ("t_y0_x0.png".toList)
    ("r_y0_x0.png".toList) zeroImg rfl rfl rfl rfl
  exact ⟨h.1, h.2.2.2.1 rfl⟩

/-- The flatten loop leaves no vertex with negative z. -/
theorem flattenBase_nonneg (verts : List V3) :
    (flattenBase verts).all (fun v => 0 ≤ v.z) = true := by
  rw [flattenBase, List.all_eq_true]
  intro v hv
  rcases List.mem_map.mp hv with ⟨v0, hv0, rfl⟩
  by_cases h : v0.z < 0
  · simp [h]
  · simp [h, le_of_not_lt h]

/-- Claim C5: after the flatten step, every vertex of every exported STL
mesh has z at least zero, for every host, configuration (in particular
every displacement strength and thickness) and grid cell, in every
termination mode of the build. -/
theorem C5_stl_flatten_no_negative_z (loadImage : LoadImage) (props : Props)
    (row col : Nat) (b : Bool) :
    ((generate_tile_for_stl loadImage props row col b).2.1).all
      (fun f => f.verts.all (fun v => 0 ≤ v.z)) = true := by
  cases hpath : generate_heightmap_path props.start_tile_file row col with
  | error e =>
    rw [generate_tile_for_stl_raises loadImage props row col b e hpath]
    rfl
  | ok hp =>
    cases hp with
    | none =>
      rw [generate_tile_for_stl_no_path loadImage props row col b hpath]
      rfl
    | some hm =>
      cases hload : loadImage hm with
      | none =>
        rw [generate_tile_for_stl_no_load loadImage props row col b hm hpath hload]
        rfl
      | some img =>
        rw [generate_tile_for_stl_built loadImage props row col b hm img hpath hload]
        simp only [List.all_cons, List.all_nil, Bool.and_true]
        exact flattenBase_nonneg _

/-- Counterexample to claim C2: at a concrete single-tile render run the
built tile has an empty modifier stack (its subdivision and displacement
modifiers were collapsed during the build), so the modifiers are not live
after the render-mode tile build completes. -/
theorem C2_render_modifiers_not_live_counterexample :
    (generate_render_tiles_execute loadAll baseProps).1 = Except.ok OpResult.FINISHED
    ∧ ((generate_render_tiles_execute loadAll baseProps).2.1).map
        (fun t => t.obj.modifiers.length) = [0] :=
  ⟨rfl, rfl⟩

/-- Amended claim C2: in render mode exactly as in STL mode the subdivision
and displacement modifiers are collapsed into concrete geometry during the
tile build: every built render tile carries no live modifiers, and
apply_displacement leaves the modifier stack it found (it bakes and removes
the two modifiers it adds). -/
theorem C2_modifiers_always_baked_amended :
    (∀ (loadImage : LoadImage) (props : Props) (row col : Nat) (b : Bool),
      ((generate_tile_for_render loadImage props row col b).2.1).all
        (fun t => t.obj.modifiers.isEmpty) = true)
    ∧ (∀ (img : Img) (strength : ℚ) (levels : Nat) (o : BObject),
        (apply_displacement img strength levels o).modifiers = o.modifiers) := by
  constructor
  · intro loadImage props row col b
    cases htp : generate_texture_paths props row col with
    | error e =>
      rw [generate_tile_for_render_raises loadImage props row col b e htp]
      rfl
    | ok tp =>
      obtain ⟨hmo, t, r⟩ := tp
      cases hmo with
      | none =>
        rw [generate_tile_for_render_no_path loadImage props row col b t r htp]
        rfl
      | some hm =>
        cases hload : loadImage hm with
        | none =>
          rw [generate_tile_for_render_no_load loadImage props row col b hm t r htp hload]
          rfl
        | some img =>
          rw [generate_tile_for_render_built loadImage props row col b hm t r img htp hload]
          rfl
  · intro img strength levels o
    rfl

/-! ## The grid loop -/

/-- Head step of the shared loop when the first cell raises: the exception
propagates and only that cell's side effects persist. -/
theorem runTiles_error_head {α : Type}
    (step : Nat × Nat → Except PyExn OpResult × List α × List Report)
    (rc : Nat × Nat) (rest : List (Nat × Nat)) (e : PyExn)
    (h : (step rc).1 = Except.error e) :
    runTiles step (rc :: rest) = (Except.error e, (step rc).2.1, (step rc).2.2) := by
  simp only [runTiles]
  rw [h]
  try simp

/-- Head step of the shared loop when the first cell raises having produced
no side effects: the loop output is exactly the propagating exception. -/
theorem runTiles_error_head_clean {α : Type}
    (step : Nat × Nat → Except PyExn OpResult × List α × List Report)
    (rc : Nat × Nat) (rest : List (Nat × Nat)) (e : PyExn)
    (h : step rc = (Except.error e, [], [])) :
    runTiles step (rc :: rest) = (Except.error e, [], []) := by
  simp only [runTiles]
  rw [h]
  try simp

/-- Head step of the shared loop when the first cell cancels: the loop
returns that cell's outcome and side effects unchanged. -/
theorem runTiles_cancel_head {α : Type}
    (step : Nat × Nat → Except PyExn OpResult × List α × List Report)
    (rc : Nat × Nat) (rest : List (Nat × Nat))
    (h : (step rc).1 = Except.ok OpResult.CANCELLED) :
    runTiles step (rc :: rest) = step rc := by
  simp only [runTiles]
  rw [h]
  try simp

/-- Head step of the shared loop when the first cell finishes: the loop
continues and the side effects accumulate. -/
theorem runTiles_finished_head {α : Type}
    (step : Nat × Nat → Except PyExn OpResult × List α × List Report)
    (rc : Nat × Nat) (rest : List (Nat × Nat))
    (h : (step rc).1 = Except.ok OpResult.FINISHED) :
    runTiles step (rc :: rest)
      = ((runTiles step rest).1, (step rc).2.1 ++ (runTiles step rest).2.1,
         (step rc).2.2 ++ (runTiles step rest).2.2) := by
  simp only [runTiles]
  rw [h]
  try simp

/-- Behaviour of the shared tile loop, given that each failing cell either
raises the report AttributeError or cancels, producing no tile, and each
non-failing cell finishes producing exactly its own tile: the tiles
produced are those of the cells strictly before the first failure in
traversal order, and a failure-free traversal finishes. -/
theorem runTiles_tiles_spec {α : Type}
    (step : Nat × Nat → Except PyExn OpResult × List α × List Report)
    (fails : Nat × Nat → Bool) (co : α → Nat × Nat) (ps : List (Nat × Nat))
    (hstep : ∀ rc ∈ ps,
      (fails rc = true →
        ((step rc).1 = Except.error PyExn.attributeError
          ∨ (step rc).1 = Except.ok OpResult.CANCELLED)
        ∧ (step rc).2.1 = [])
      ∧ (fails rc = false → (step rc).1 = Except.ok OpResult.FINISHED
          ∧ ((step rc).2.1).map co = [rc])) :
    ((runTiles step ps).2.1).map co = ps.takeWhile (fun rc => !fails rc)
    ∧ (ps.any fails = false → (runTiles step ps).1 = Except.ok OpResult.FINISHED) := by
  induction ps with
  | nil => exact ⟨rfl, fun _ => rfl⟩
  | cons rc rest ih =>
    have hrc := hstep rc (List.mem_cons_self _ _)
    have ihh := ih (fun p hp => hstep p (List.mem_cons_of_mem _ hp))
    cases hf : fails rc with
    | true =>
      obtain ⟨hres, htiles⟩ := hrc.1 hf
      have hmap : ((runTiles step (rc :: rest)).2.1).map co
          = (rc :: rest).takeWhile (fun rc => !fails rc) := by
        rcases hres with herr | hcan
        · rw [runTiles_error_head step rc rest PyExn.attributeError herr,
            List.takeWhile_cons, hf]
          simp [htiles]
        · rw [runTiles_cancel_head step rc rest hcan, List.takeWhile_cons, hf]
          simp [htiles]
      refine ⟨hmap, fun hno => ?_⟩
      rw [List.any_cons, hf] at hno
      simp at hno
    | false =>
      obtain ⟨hres, htiles⟩ := hrc.2 hf
      rw [runTiles_finished_head step rc rest hres]
      constructor
      · rw [List.takeWhile_cons, hf]
        simp only [List.map_append, htiles, ihh.1]
        simp
      · intro hno
        rw [List.any_cons, hf] at hno
        simp only [Bool.false_or] at hno
        exact ihh.2 hno

/-- Result of the shared tile loop when no cell raises: a failing cell
cancels the whole run. -/
theorem runTiles_cancelled_spec {α : Type}
    (step : Nat × Nat → Except PyExn OpResult × List α × List Report)
    (fails : Nat × Nat → Bool) (ps : List (Nat × Nat))
    (hstep : ∀ rc ∈ ps,
      (fails rc = true → (step rc).1 = Except.ok OpResult.CANCELLED)
      ∧ (fails rc = false → (step rc).1 = Except.ok OpResult.FINISHED))
    (hany : ps.any fails = true) :
    (runTiles step ps).1 = Except.ok OpResult.CANCELLED := by
  induction ps with
  | nil => simp at hany
  | cons rc rest ih =>
    have hrc := hstep rc (List.mem_cons_self _ _)
    cases hf : fails rc with
    | true =>
      rw [runTiles_cancel_head step rc rest (hrc.1 hf)]
      exact hrc.1 hf
    | false =>
      rw [runTiles_finished_head step rc rest (hrc.2 hf)]
      have hany2 : rest.any fails = true := by
        rw [List.any_cons, hf] at hany
        simpa using hany
      exact ih (fun p hp => hstep p (List.mem_cons_of_mem _ hp)) hany2

/-- Per-cell behaviour of the render tile builder in terms of its failure
predicate. -/
theorem render_step_spec (loadImage : LoadImage) (props : Props) (b : Bool)
    (rc : Nat × Nat) :
    (renderTileFails loadImage props rc = true →
      ((generate_tile_for_render loadImage props rc.1 rc.2 b).1
          = Except.error PyExn.attributeError
        ∨ (generate_tile_for_render loadImage props rc.1 rc.2 b).1
          = Except.ok OpResult.CANCELLED)
      ∧ (generate_tile_for_render loadImage props rc.1 rc.2 b).2.1 = [])
    ∧ (renderTileFails loadImage props rc = false →
      (generate_tile_for_render loadImage props rc.1 rc.2 b).1 = Except.ok OpResult.FINISHED
      ∧ ((generate_tile_for_render loadImage props rc.1 rc.2 b).2.1).map
          (fun t => (t.row, t.col)) = [rc]) := by
  cases htp : generate_texture_paths props rc.1 rc.2 with
  | error e =>
    cases e
    have hf : renderTileFails loadImage props rc = true := by
      simp [renderTileFails, htp]
    rw [hf]
    refine ⟨fun _ => ?_, fun hcon => by simp at hcon⟩
    rw [generate_tile_for_render_raises loadImage props rc.1 rc.2 b
      PyExn.attributeError htp]
    exact ⟨Or.inl rfl, rfl⟩
  | ok tp =>
    obtain ⟨hmo, t, r⟩ := tp
    cases hmo with
    | none =>
      have hf : renderTileFails loadImage props rc = true := by
        simp [renderTileFails, htp]
      rw [hf]
      refine ⟨fun _ => ?_, fun hcon => by simp at hcon⟩
      rw [generate_tile_for_render_no_path loadImage props rc.1 rc.2 b t r htp]
      exact ⟨Or.inr rfl, rfl⟩
    | some hm =>
      cases hload : loadImage hm with
      | none =>
        have hf : renderTileFails loadImage props rc = true := by
          simp [renderTileFails, htp, hload]
        rw [hf]
        refine ⟨fun _ => ?_, fun hcon => by simp at hcon⟩
        rw [generate_tile_for_render_no_load loadImage props rc.1 rc.2 b hm t r htp hload]
        exact ⟨Or.inr rfl, rfl⟩
      | some img =>
        have hf : renderTileFails loadImage props rc = false := by
          simp [renderTileFails, htp, hload]
        rw [hf]
        refine ⟨fun hcon => by simp at hcon, fun _ => ?_⟩
        rw [generate_tile_for_render_built loadImage props rc.1 rc.2 b hm t r img htp hload]
        exact ⟨rfl, rfl⟩

/-- Per-cell behaviour of the STL tile builder in terms of its failure
predicate. -/
theorem stl_step_spec (loadImage : LoadImage) (props : Props) (b : Bool)
    (rc : Nat × Nat) :
    (heightmapTileFails loadImage props rc = true →
      ((generate_tile_for_stl loadImage props rc.1 rc.2 b).1
          = Except.error PyExn.attributeError
        ∨ (generate_tile_for_stl loadImage props rc.1 rc.2 b).1
          = Except.ok OpResult.CANCELLED)
      ∧ (generate_tile_for_stl loadImage props rc.1 rc.2 b).2.1 = [])
    ∧ (heightmapTileFails loadImage props rc = false →
      (generate_tile_for_stl loadImage props rc.1 rc.2 b).1 = Except.ok OpResult.FINISHED
      ∧ ((generate_tile_for_stl loadImage props rc.1 rc.2 b).2.1).map
          (fun f => (f.row, f.col)) = [rc]) := by
  cases hpath : generate_heightmap_path props.start_tile_file rc.1 rc.2 with
  | error e =>
    cases e
    have hf : heightmapTileFails loadImage props rc = true := by
      simp [heightmapTileFails, hpath]
    rw [hf]
    refine ⟨fun _ => ?_, fun hcon => by simp at hcon⟩
    rw [generate_tile_for_stl_raises loadImage props rc.1 rc.2 b
      PyExn.attributeError hpath]
    exact ⟨Or.inl rfl, rfl⟩
  | ok hp =>
    cases hp with
    | none =>
      have hf : heightmapTileFails loadImage props rc = true := by
        simp [heightmapTileFails, hpath]
      rw [hf]
      refine ⟨fun _ => ?_, fun hcon => by simp at hcon⟩
      rw [generate_tile_for_stl_no_path loadImage props rc.1 rc.2 b hpath]
      exact ⟨Or.inr rfl, rfl⟩
    | some hm =>
      cases hload : loadImage hm with
      | none =>
        have hf : heightmapTileFails loadImage props rc = true := by
          simp [heightmapTileFails, hpath, hload]
        rw [hf]
        refine ⟨fun _ => ?_, fun hcon => by simp at hcon⟩
        rw [generate_tile_for_stl_no_load loadImage props rc.1 rc.2 b hm hpath hload]
        exact ⟨Or.inr rfl, rfl⟩
      | some img =>
        have hf : heightmapTileFails loadImage props rc = false := by
          simp [heightmapTileFails, hpath, hload]
        rw [hf]
        refine ⟨fun hcon => by simp at hcon, fun _ => ?_⟩
        rw [generate_tile_for_stl_built loadImage props rc.1 rc.2 b hm img hpath hload]
        exact ⟨rfl, rfl⟩

/-- A stem containing the coordinate pattern makes the heightmap resolver
succeed with a path for every offset. -/
theorem ghp_ok_of_contains (p : List Char) (row col : Nat)
    (h : containsYXPattern (pathStem p)) :
    ∃ q, generate_heightmap_path p row col = Except.ok (some q) := by
  have hs := (containsYXPattern_iff_searchYX (pathStem p)).mp h
  cases hcase : searchYX (pathStem p) with
  | none =>
    rw [hcase] at hs
    simp at hs
  | some m => exact ⟨_, generate_heightmap_path_eq_some p row col m hcase⟩

/-- A path whose stem contains the coordinate pattern is nonempty. -/
theorem contains_stem_ne_nil (p : List Char) (h : containsYXPattern (pathStem p)) :
    p ≠ [] := by
  intro hp
  subst hp
  have hs := (containsYXPattern_iff_searchYX (pathStem [])).mp h
  revert hs
  decide

/-- An optional input that is empty or has a matching stem never raises. -/
theorem gtr_ok_of_opt (p : List Char) (row col : Nat)
    (h : p = [] ∨ containsYXPattern (pathStem p)) :
    ∃ t, generate_texture_or_roughness_path p row col = Except.ok t := by
  rcases h with rfl | hc
  · exact ⟨none, by simp [generate_texture_or_roughness_path]⟩
  · obtain ⟨q, hq⟩ := ghp_ok_of_contains p row col hc
    refine ⟨some q, ?_⟩
    rw [gtr_eq_heightmap p row col (contains_stem_ne_nil p hc)]
    exact hq

/-- When all three configured paths are resolvable the render tile builder
never raises: it cancels exactly on its failing cells and finishes on the
rest. -/
theorem render_step_no_raise (loadImage : LoadImage) (props : Props) (b : Bool)
    (hpat : containsYXPattern (pathStem props.start_tile_file))
    (htex : props.texture_file = [] ∨ containsYXPattern (pathStem props.texture_file))
    (hrgh : props.roughness_file = [] ∨ containsYXPattern (pathStem props.roughness_file))
    (rc : Nat × Nat) :
    (renderTileFails loadImage props rc = true →
      (generate_tile_for_render loadImage props rc.1 rc.2 b).1
        = Except.ok OpResult.CANCELLED)
    ∧ (renderTileFails loadImage props rc = false →
      (generate_tile_for_render loadImage props rc.1 rc.2 b).1
        = Except.ok OpResult.FINISHED) := by
  obtain ⟨hmq, hhm⟩ := ghp_ok_of_contains props.start_tile_file rc.1 rc.2 hpat
  obtain ⟨t, ht⟩ := gtr_ok_of_opt props.texture_file rc.1 rc.2 htex
  obtain ⟨r, hr⟩ := gtr_ok_of_opt props.roughness_file rc.1 rc.2 hrgh
  have htp := generate_texture_paths_ok props rc.1 rc.2 (some hmq) t r hhm ht hr
  cases hload : loadImage hmq with
  | none =>
    have hf : renderTileFails loadImage props rc = true := by
      simp [renderTileFails, htp, hload]
    rw [hf]
    refine ⟨fun _ => ?_, fun hcon => by simp at hcon⟩
    exact congrArg Prod.fst
      (generate_tile_for_render_no_load loadImage props rc.1 rc.2 b hmq t r htp hload)
  | some img =>
    have hf : renderTileFails loadImage props rc = false := by
      simp [renderTileFails, htp, hload]
    rw [hf]
    refine ⟨fun hcon => by simp at hcon, fun _ => ?_⟩
    exact congrArg Prod.fst
      (generate_tile_for_render_built loadImage props rc.1 rc.2 b hmq t r img htp hload)

/-- When the start path is resolvable the STL tile builder never raises: it
cancels exactly on its failing cells and finishes on the rest. -/
theorem stl_step_no_raise (loadImage : LoadImage) (props : Props) (b : Bool)
    (hpat : containsYXPattern (pathStem props.start_tile_file))
    (rc : Nat × Nat) :
    (heightmapTileFails loadImage props rc = true →
      (generate_tile_for_stl loadImage props rc.1 rc.2 b).1
        = Except.ok OpResult.CANCELLED)
    ∧ (heightmapTileFails loadImage props rc = false →
      (generate_tile_for_stl loadImage props rc.1 rc.2 b).1
        = Except.ok OpResult.FINISHED) := by
  obtain ⟨hmq, hhm⟩ := ghp_ok_of_contains props.start_tile_file rc.1 rc.2 hpat
  cases hload : loadImage hmq with
  | none =>
    have hf : heightmapTileFails loadImage props rc = true := by
      simp [heightmapTileFails, hhm, hload]
    rw [hf]
    refine ⟨fun _ => ?_, fun hcon => by simp at hcon⟩
    exact congrArg Prod.fst
      (generate_tile_for_stl_no_load loadImage props rc.1 rc.2 b hmq hhm hload)
  | some img =>
    have hf : heightmapTileFails loadImage props rc = false := by
      simp [heightmapTileFails, hhm, hload]
    rw [hf]
    refine ⟨fun hcon => by simp at hcon, fun _ => ?_⟩
    exact congrArg Prod.fst
      (generate_tile_for_stl_built loadImage props rc.1 rc.2 b hmq img hhm hload)

/-- The render execute method: cells of the built tiles, and a finishing
result on failure-free grids. -/
theorem render_exec_tiles_spec (loadImage : LoadImage) (props : Props) :
    ((generate_render_tiles_execute loadImage props).2.1).map (fun t => (t.row, t.col))
      = (rowMajor props.num_rows props.num_cols).takeWhile
          (fun rc => !renderTileFails loadImage props rc)
    ∧ ((rowMajor props.num_rows props.num_cols).any
          (renderTileFails loadImage props) = false →
        (generate_render_tiles_execute loadImage props).1 = Except.ok OpResult.FINISHED) := by
  unfold generate_render_tiles_execute
  exact runTiles_tiles_spec _ (renderTileFails loadImage props) (fun t => (t.row, t.col))
    (rowMajor props.num_rows props.num_cols)
    (fun rc _ => render_step_spec loadImage props
      (props.num_rows == 1 && props.num_cols == 1) rc)

/-- The STL execute method: cells of the exported files, and a finishing
result on failure-free grids. -/
theorem stl_exec_tiles_spec (loadImage : LoadImage) (props : Props) :
    ((generate_stl_tiles_execute loadImage props).2.1).map (fun f => (f.row, f.col))
      = (rowMajor props.num_rows props.num_cols).takeWhile
          (fun rc => !heightmapTileFails loadImage props rc)
    ∧ ((rowMajor props.num_rows props.num_cols).any
          (heightmapTileFails loadImage props) = false →
        (generate_stl_tiles_execute loadImage props).1 = Except.ok OpResult.FINISHED) := by
  unfold generate_stl_tiles_execute
  exact runTiles_tiles_spec _ (heightmapTileFails loadImage props) (fun f => (f.row, f.col))
    (rowMajor props.num_rows props.num_cols)
    (fun rc _ => stl_step_spec loadImage props
      (props.num_rows == 1 && props.num_cols == 1) rc)

/-- The render execute method cancels when some cell fails and no resolver
raises. -/
theorem render_exec_cancelled (loadImage : LoadImage) (props : Props)
    (hpat : containsYXPattern (pathStem props.start_tile_file))
    (htex : props.texture_file = [] ∨ containsYXPattern (pathStem props.texture_file))
    (hrgh : props.roughness_file = [] ∨ containsYXPattern (pathStem props.roughness_file))
    (hany : (rowMajor props.num_rows props.num_cols).any
      (renderTileFails loadImage props) = true) :
    (generate_render_tiles_execute loadImage props).1 = Except.ok OpResult.CANCELLED := by
  unfold generate_render_tiles_execute
  exact runTiles_cancelled_spec _ (renderTileFails loadImage props)
    (rowMajor props.num_rows props.num_cols)
    (fun rc _ => render_step_no_raise loadImage props
      (props.num_rows == 1 && props.num_cols == 1) hpat htex hrgh rc) hany

/-- The STL execute method cancels when some cell fails and the resolver
never raises. -/
theorem stl_exec_cancelled (loadImage : LoadImage) (props : Props)
    (hpat : containsYXPattern (pathStem props.start_tile_file))
    (hany : (rowMajor props.num_rows props.num_cols).any
      (heightmapTileFails loadImage props) = true) :
    (generate_stl_tiles_execute loadImage props).1 = Except.ok OpResult.CANCELLED := by
  unfold generate_stl_tiles_execute
  exact runTiles_cancelled_spec _ (heightmapTileFails loadImage props)
    (rowMajor props.num_rows props.num_cols)
    (fun rc _ => stl_step_no_raise loadImage props
      (props.num_rows == 1 && props.num_cols == 1) hpat rc) hany

/-! ## Row-major order -/

theorem rowMajor_succ (rows cols : Nat) :
    rowMajor (rows + 1) cols
      = rowMajor rows cols ++ (List.range cols).map (fun c => (rows, c)) := by
  rw [rowMajor, rowMajor, List.range_succ, List.flatMap_append]
  simp

theorem length_rowMajor (rows cols : Nat) : (rowMajor rows cols).length = rows * cols := by
  induction rows with
  | zero => simp [rowMajor]
  | succ R ih =>
    rw [rowMajor_succ, List.length_append, ih, List.length_map, List.length_range,
      Nat.succ_mul]

theorem mem_rowMajor (rows cols r c : Nat) :
    (r, c) ∈ rowMajor rows cols ↔ r < rows ∧ c < cols := by
  rw [rowMajor, List.mem_flatMap]
  constructor
  · rintro ⟨a, ha, hm⟩
    rcases List.mem_map.mp hm with ⟨b, hb, heq⟩
    obtain ⟨rfl, rfl⟩ := Prod.mk.injEq .. ▸ heq
    exact ⟨List.mem_range.mp ha, List.mem_range.mp hb⟩
  · rintro ⟨hr, hc⟩
    exact ⟨r, List.mem_range.mpr hr, List.mem_map.mpr ⟨c, List.mem_range.mpr hc, rfl⟩⟩

theorem indexOf_append_mem {α : Type} [BEq α] [LawfulBEq α] (a : α) (l₁ l₂ : List α)
    (h : a ∈ l₁) : (l₁ ++ l₂).indexOf a = l₁.indexOf a := by
  induction l₁ with
  | nil => simp at h
  | cons b t ih =>
    rw [List.cons_append, List.indexOf_cons, List.indexOf_cons]
    cases hba : b == a with
    | true => rfl
    | false =>
      have hmem : a ∈ t := by
        rcases List.mem_cons.mp h with rfl | hm
        · rw [beq_eq_false_iff_ne] at hba
          exact absurd rfl hba
        · exact hm
      simp [ih hmem]

theorem indexOf_append_not_mem {α : Type} [BEq α] [LawfulBEq α] (a : α) (l₁ l₂ : List α)
    (h : a ∉ l₁) : (l₁ ++ l₂).indexOf a = l₁.length + l₂.indexOf a := by
  induction l₁ with
  | nil => simp
  | cons b t ih =>
    have hba : (b == a) = false := beq_eq_false_iff_ne.mpr
      (fun hcon => h (by rw [← hcon] at *; exact List.mem_cons_self b t))
    rw [List.cons_append, List.indexOf_cons, hba,
      ih (fun hm => h (List.mem_cons_of_mem b hm))]
    simp [List.length_cons]
    omega

theorem indexOf_map_range (r c cols : Nat) (hc : c < cols) :
    List.indexOf (r, c) ((List.range cols).map (fun j => (r, j))) = c := by
  induction cols with
  | zero => exact absurd hc (Nat.not_lt_zero c)
  | succ n ih =>
    rw [List.range_succ, List.map_append]
    by_cases h : c < n
    · have hmem : (r, c) ∈ (List.range n).map (fun j => (r, j)) :=
        List.mem_map.mpr ⟨c, List.mem_range.mpr h, rfl⟩
      rw [indexOf_append_mem (r, c) _ _ hmem]
      exact ih h
    · have hcn : c = n := by omega
      have hnm : (r, c) ∉ (List.range n).map (fun j => (r, j)) := by
        intro hm
        rcases List.mem_map.mp hm with ⟨b, hb, heq⟩
        obtain ⟨-, hbc⟩ := Prod.mk.injEq .. ▸ heq
        rw [hbc, hcn] at hb
        exact absurd (List.mem_range.mp hb) (lt_irrefl n)
      rw [indexOf_append_not_mem (r, c) _ _ hnm, List.length_map, List.length_range]
      have hz : List.indexOf (r, c) ((List.map (fun j => (r, j)) [n])) = 0 := by
        rw [hcn]
        simp [List.indexOf_cons]
      rw [hz]
      omega

theorem indexOf_rowMajor (rows cols r c : Nat) (hr : r < rows) (hc : c < cols) :
    List.indexOf (r, c) (rowMajor rows cols) = r * cols + c := by
  induction rows with
  | zero => exact absurd hr (Nat.not_lt_zero r)
  | succ R ih =>
    rw [rowMajor_succ]
    by_cases h : r < R
    · have hmem : (r, c) ∈ rowMajor R cols := (mem_rowMajor R cols r c).mpr ⟨h, hc⟩
      rw [indexOf_append_mem (r, c) _ _ hmem]
      exact ih h
    · have hrR : r = R := by omega
      have hnm : (r, c) ∉ rowMajor R cols := by
        intro hm
        have := ((mem_rowMajor R cols r c).mp hm).1
        omega
      rw [indexOf_append_not_mem (r, c) _ _ hnm, length_rowMajor]
      have hz : List.indexOf (r, c) ((List.range cols).map (fun j => (R, j))) = c := by
        rw [← hrR]
        exact indexOf_map_range r c cols hc
      rw [hz, hrR]

theorem rowMajor_index_lex (rows cols r1 c1 r2 c2 : Nat)
    (h1 : r1 < rows) (h2 : c1 < cols) (h3 : r2 < rows) (h4 : c2 < cols) :
    (List.indexOf (r1, c1) (rowMajor rows cols)
        < List.indexOf (r2, c2) (rowMajor rows cols))
      ↔ (r1 < r2 ∨ (r1 = r2 ∧ c1 < c2)) := by
  rw [indexOf_rowMajor rows cols r1 c1 h1 h2, indexOf_rowMajor rows cols r2 c2 h3 h4]
  constructor
  · intro hlt
    rcases Nat.lt_trichotomy r1 r2 with h | h | h
    · exact Or.inl h
    · subst h
      exact Or.inr ⟨rfl, by omega⟩
    · exfalso
      have hge : r2 * cols + cols ≤ r1 * cols := by
        have hs := Nat.succ_le_of_lt h
        calc r2 * cols + cols = (r2 + 1) * cols := by ring
        _ ≤ r1 * cols := Nat.mul_le_mul_right cols hs
      omega
  · rintro (h | ⟨rfl, h⟩)
    · have hge : r1 * cols + cols ≤ r2 * cols := by
        have hs := Nat.succ_le_of_lt h
        calc r1 * cols + cols = (r1 + 1) * cols := by ring
        _ ≤ r2 * cols := Nat.mul_le_mul_right cols hs
      omega
    · omega

/-- A nonempty grid's row-major traversal starts at the origin cell. -/
theorem rowMajor_head_ex (rows cols : Nat) (hr : 0 < rows) (hc : 0 < cols) :
    ∃ rest, rowMajor rows cols = (0, 0) :: rest := by
  cases rows with
  | zero => exact absurd hr (by decide)
  | succ r2 =>
    cases cols with
    | zero => exact absurd hc (by decide)
    | succ c2 =>
      exact ⟨_, by
        rw [rowMajor]
        simp only [List.range_succ_eq_map, List.flatMap_cons, List.map_cons,
          List.cons_append]
        rfl⟩

/-- Claim C4 names behaviour the code only partially implements.  The
load-failure half is real: when every configured path resolves but some
cell's heightmap raster fails to load, both commands return CANCELLED
(second conjunct) and the tiles or files that exist are exactly the cells
strictly before the first failing cell in row-major order (third conjunct,
which holds unconditionally).  The resolution-failure half is not: a
heightmap path FAILURE cannot abort the run, because on a pattern mismatch
the resolver calls report on the bpy context, which has no report method,
so the very first cell raises AttributeError out of execute and neither a
CANCELLED return nor the claimed clean stop happens (first conjunct). -/
theorem C4_failure_abort_partially_implemented :
    (∀ (loadImage : LoadImage) (props : Props),
      0 < props.num_rows → 0 < props.num_cols →
      ¬ containsYXPattern (pathStem props.start_tile_file) →
      generate_render_tiles_execute loadImage props
        = (Except.error PyExn.attributeError, [], [])
      ∧ generate_stl_tiles_execute loadImage props
        = (Except.error PyExn.attributeError, [], []))
    ∧ (∀ (loadImage : LoadImage) (props : Props),
      containsYXPattern (pathStem props.start_tile_file) →
      (props.texture_file = [] ∨ containsYXPattern (pathStem props.texture_file)) →
      (props.roughness_file = [] ∨ containsYXPattern (pathStem props.roughness_file)) →
      ((rowMajor props.num_rows props.num_cols).any
          (renderTileFails loadImage props) = true →
        (generate_render_tiles_execute loadImage props).1 = Except.ok OpResult.CANCELLED)
      ∧ ((rowMajor props.num_rows props.num_cols).any
          (heightmapTileFails loadImage props) = true →
        (generate_stl_tiles_execute loadImage props).1 = Except.ok OpResult.CANCELLED))
    ∧ (∀ (loadImage : LoadImage) (props : Props),
      ((generate_render_tiles_execute loadImage props).2.1).map (fun t => (t.row, t.col))
        = (rowMajor props.num_rows props.num_cols).takeWhile
            (fun rc => !renderTileFails loadImage props rc)
      ∧ ((generate_stl_tiles_execute loadImage props).2.1).map (fun f => (f.row, f.col))
        = (rowMajor props.num_rows props.num_cols).takeWhile
            (fun rc => !heightmapTileFails loadImage props rc)) := by
  refine ⟨?_, ?_, ?_⟩
  · intro loadImage props hr hc hnopat
    have hs : searchYX (pathStem props.start_tile_file) = none := by
      cases hcase : searchYX (pathStem props.start_tile_file) with
      | none => rfl
      | some m =>
        exact absurd ((containsYXPattern_iff_searchYX _).mpr (by rw [hcase]; rfl)) hnopat
    have hghp := generate_heightmap_path_raises props.start_tile_file 0 0 hs
    obtain ⟨rest, hrm⟩ := rowMajor_head_ex props.num_rows props.num_cols hr hc
    constructor
    · have htp := generate_texture_paths_err_hm props 0 0 PyExn.attributeError hghp
      have hstep := generate_tile_for_render_raises loadImage props 0 0
        (props.num_rows == 1 && props.num_cols == 1) PyExn.attributeError htp
      simp only [generate_render_tiles_execute]
      rw [hrm]
      exact runTiles_error_head_clean _ (0, 0) rest PyExn.attributeError hstep
    · have hstep := generate_tile_for_stl_raises loadImage props 0 0
        (props.num_rows == 1 && props.num_cols == 1) PyExn.attributeError hghp
      simp only [generate_stl_tiles_execute]
      rw [hrm]
      exact runTiles_error_head_clean _ (0, 0) rest PyExn.attributeError hstep
  · intro loadImage props hpat htex hrgh
    exact ⟨fun hany => render_exec_cancelled loadImage props hpat htex hrgh hany,
      fun hany => stl_exec_cancelled loadImage props hpat hany⟩
  · intro loadImage props
    exact ⟨(render_exec_tiles_spec loadImage props).1,
      (stl_exec_tiles_spec loadImage props).1⟩

/-- Witness for C4: with the pattern-free start file flat.png on a 1 by 1
grid the render run raises instead of cancelling, and on a 2 by 2 grid
whose (0,1) heightmap fails to load both runs cancel with exactly tile
(0,0) built. -/
theorem C4_failure_abort_partially_implemented_witness :
    generate_render_tiles_execute loadAll propsFlat
      = (Except.error PyExn.attributeError, [], [])
    ∧ (generate_render_tiles_execute (loadAllBut ("a_y0_x1.png".toList)) propsGrid2).1
        = Except.ok OpResult.CANCELLED
    ∧ (generate_stl_tiles_execute (loadAllBut ("a_y0_x1.png".toList)) propsGrid2).1
        = Except.ok OpResult.CANCELLED
    ∧ ((generate_render_tiles_execute (loadAllBut ("a_y0_x1.png".toList)) propsGrid2).2.1).map
        (fun t => (t.row, t.col)) = [(0, 0)]
    ∧ ((generate_stl_tiles_execute (loadAllBut ("a_y0_x1.png".toList)) propsGrid2).2.1).map
        (fun f => (f.row, f.col)) = [(0, 0)] := by
  have h1 := C4_failure_abort_partially_implemented.1 loadAll propsFlat (by decide) (by decide)
    (fun hc => by
      have h2 := (containsYXPattern_iff_searchYX _).mp hc
      revert h2
      decide)
  have h2 := C4_failure_abort_partially_implemented.2.1 (loadAllBut ("a_y0_x1.png".toList))
    propsGrid2 ((containsYXPattern_iff_searchYX _).mpr (by decide)) (Or.inl rfl) (Or.inl rfl)
  have h3 := C4_failure_abort_partially_implemented.2.2 (loadAllBut ("a_y0_x1.png".toList))
    propsGrid2
  refine ⟨h1.1, h2.1 (by decide), h2.2 (by decide), ?_, ?_⟩
  · rw [h3.1]
    decide
  · rw [h3.2]
    decide

/-- Claim C9: traversal is strictly row-major: the 2 by 3 grid is traversed
in the stated order; in general cell (r1, c1) comes strictly before
(r2, c2) in the traversal exactly when r1 < r2 or r1 = r2 and c1 < c2; and
the tiles built by either command follow the traversal order: they are an
initial segment of it, in every failure mode, including the raising one,
where no tile at all is built. -/
theorem C9_traversal_row_major :
    rowMajor 2 3 = [(0, 0), (0, 1), (0, 2), (1, 0), (1, 1), (1, 2)]
    ∧ (∀ rows cols r1 c1 r2 c2 : Nat, r1 < rows → c1 < cols → r2 < rows → c2 < cols →
        (List.indexOf (r1, c1) (rowMajor rows cols)
            < List.indexOf (r2, c2) (rowMajor rows cols)
          ↔ (r1 < r2 ∨ (r1 = r2 ∧ c1 < c2))))
    ∧ (∀ (loadImage : LoadImage) (props : Props),
        ((generate_render_tiles_execute loadImage props).2.1).map (fun t => (t.row, t.col))
          = (rowMajor props.num_rows props.num_cols).takeWhile
              (fun rc => !renderTileFails loadImage props rc)
        ∧ ((generate_stl_tiles_execute loadImage props).2.1).map (fun f => (f.row, f.col))
          = (rowMajor props.num_rows props.num_cols).takeWhile
              (fun rc => !heightmapTileFails loadImage props rc)) :=
  ⟨by decide,
   fun rows cols r1 c1 r2 c2 h1 h2 h3 h4 =>
     rowMajor_index_lex rows cols r1 c1 r2 c2 h1 h2 h3 h4,
   fun loadImage props => ⟨(render_exec_tiles_spec loadImage props).1,
     (stl_exec_tiles_spec loadImage props).1⟩⟩

/-- Witness for C9: tile (0,1) is built before tile (1,0) on a 2 by 3
grid. -/
theorem C9_traversal_row_major_witness :
    List.indexOf ((0 : Nat), (1 : Nat)) (rowMajor 2 3)
      < List.indexOf ((1 : Nat), (0 : Nat)) (rowMajor 2 3) :=
  (C9_traversal_row_major.2.1 2 3 0 1 1 0 (by decide) (by decide) (by decide)
    (by decide)).mpr (Or.inl (by decide))

/-- Claim C1 names intended behaviour the code does not implement: the
single_heightmap flag is computed and passed by both execute methods but
never read by either tile builder (first conjunct: the tile builders are
constant in it), so single-tile mode still derives the path through the
pattern match; with the suffix-free start filename flat.png and rows =
cols = 1, the mismatch makes the resolver call report on the bpy context,
which has no report method, so both commands raise AttributeError and
build nothing instead of using the literal configured path. -/
theorem C1_single_tile_still_pattern_matches :
    (∀ (loadImage : LoadImage) (props : Props) (row col : Nat) (b1 b2 : Bool),
      generate_tile_for_render loadImage props row col b1
        = generate_tile_for_render loadImage props row col b2
      ∧ generate_tile_for_stl loadImage props row col b1
        = generate_tile_for_stl loadImage props row col b2)
    ∧ generate_render_tiles_execute loadAll propsFlat
        = (Except.error PyExn.attributeError, [], [])
    ∧ generate_stl_tiles_execute loadAll propsFlat
        = (Except.error PyExn.attributeError, [], []) :=
  ⟨fun _ _ _ _ _ _ => ⟨rfl, rfl⟩, rfl, rfl⟩

end Gaea2
